import Mathlib

/-!
Bot client movement validation, chunk addressing and session handling

A shallow embedding of `workers/bot_client/bot_client.cpp` (coordinate mapping,
chunk background entity addressing, movement validation, `move`, the scheduled tasks,
the event handlers, the connection loop and the end of tick of `main`) and of the
chunk entity loop of `seeders/tiles.cpp`.

Modelling conventions.
* `double` / `float` values (world coordinates, smoothed times) are exact rationals
  (`ℚ`) and a decimal literal is its exact decimal value: every statement about them
  below is a statement in exact arithmetic, about one evaluation of a formula of the
  source; nothing is stated about values that depend on accumulated rounding.
* C `int` / `EntityId` values are unbounded `Int`; `(int) floor(d)` is the integer
  floor of `d` (the conversion is exact whenever the floor fits an `int`).
* `rand()` is a stream of natural numbers that is consumed draw by draw.
* `g_get_monotonic_time()` is a parameter of the function that calls it, in
  microseconds.
* The connection is the list of component updates sent so far.
* The executor (`shoveler/executor.h`) is a list of scheduled tasks.
* Log output is not modelled.
-/

namespace BotClient

/-! ## Constants (bot_client.cpp, lines 102-120) -/

abbrev EntityId := Int

def velocity : ℚ := 3 / 2
def directionChangeChancePercent : Nat := 10
def halfMapWidth : Int := 100
def halfMapHeight : Int := 100
def chunkSize : Int := 10
def firstChunkEntityId : EntityId := 12
def numChunkColumns : Int := Int.tdiv (2 * halfMapWidth) chunkSize
def numChunkRows : Int := Int.tdiv (2 * halfMapHeight) chunkSize
def characterSize : ℚ := 9 / 10
def improbablePositionUpdateDistance : ℚ := 1

/-! ## Data model -/

/-- The three per-tile strings of a chunk layer; a `char` is its integer value. -/
structure TilesData where
  tilesetColumns : List Int
  tilesetRows : List Int
  tilesetIds : List Int
deriving DecidableEq, Repr

/-- The `shoveler::Vector3` carried by a `Position` component. -/
structure Vector3 where
  x : ℚ
  y : ℚ
  z : ℚ
deriving DecidableEq, Repr

/-- The `improbable::Coordinates` carried by the standard library position. -/
structure Coordinates where
  x : ℚ
  y : ℚ
  z : ℚ
deriving DecidableEq, Repr

/-- The `PositionData` of the `Position` component. -/
structure PositionData where
  coordinates : Vector3
deriving DecidableEq, Repr

/-- The `TilemapTilesData` of the `TilemapTiles` component. -/
structure TilemapTilesData where
  tileset_columns : List Int
  tileset_rows : List Int
  tileset_ids : List Int
deriving DecidableEq, Repr

/-- A `worker::Entity`, restricted to two of its components: `metadata` is the entity
type of its `Metadata` component and `tilemapTiles` is what `Get<TilemapTiles>()`
returns. -/
structure Entity where
  metadata : Option String
  tilemapTiles : Option TilemapTilesData
deriving DecidableEq, Repr

/-- The `worker::View`: `Entities` is the map from entity id to entity, `none` being
the result of `find` for an id that is not in the view. -/
structure View where
  Entities : EntityId → Option Entity

/-- Component updates that the client sends over its connection. -/
inductive ComponentUpdate where
  | position (entityId : EntityId) (coordinates : Vector3)
  | improbablePosition (entityId : EntityId) (coords : Coordinates)
  | clientHeartbeatPing (entityId : EntityId) (lastUpdatedTime : Int)
deriving DecidableEq, Repr

/-- The outgoing side of the `worker::Connection`: the updates sent, oldest first. -/
structure Connection where
  sent : List ComponentUpdate
deriving DecidableEq, Repr

/-- Sending appends to the log of sent updates (`Connection::SendComponentUpdate`). -/
def SendComponentUpdate (connection : Connection) (update : ComponentUpdate) : Connection :=
  { connection with sent := connection.sent ++ [update] }

/-- The anonymous direction enum of `ClientContext` (lines 78-83). -/
inductive Direction where
  | kUp
  | kDown
  | kLeft
  | kRight
deriving DecidableEq, Repr

/-- The enumerator values: `kUp = 0`, `kDown = 1`, `kLeft = 2`, `kRight = 3`. -/
def Direction.value : Direction → Nat
  | .kUp => 0
  | .kDown => 1
  | .kLeft => 2
  | .kRight => 3

/-- The `static_cast` from an integer in `0..3` back to the enum. -/
def Direction.fromValue (n : Nat) : Direction :=
  if n = 0 then .kUp else if n = 1 then .kDown else if n = 2 then .kLeft else .kRight

/-- The `ClientContext` struct (lines 74-88); times are in microseconds. -/
structure ClientContext where
  connection : Connection
  view : View
  clientEntityId : EntityId
  direction : Direction
  lastImprobablePosition : Coordinates
  lastHeartbeatPongTime : Int
  meanHeartbeatLatencyMs : ℚ
  meanTimeSinceLastHeartbeatPongMs : ℚ

/-- The results of the coming calls of `rand()`, in order. -/
abbrev RandStream := Nat → Nat

/-- One call of `rand()`: the next draw and the rest of the stream. -/
def rand (g : RandStream) : Nat × RandStream :=
  (g 0, fun n => g (n + 1))

/-- The four out-parameters of `worldToTile`. -/
structure TileAddress where
  chunkX : Int
  chunkZ : Int
  tileX : Int
  tileZ : Int
deriving DecidableEq, Repr

/-! ## Coordinate mapper (lines 492-514) -/

/-- `tileToWorld` (lines 492-494): the reference corner of a tile. -/
def tileToWorld (chunkX chunkZ tileX tileZ : Int) : ℚ × ℚ :=
  (((-halfMapWidth + chunkX * chunkSize + tileX : Int) : ℚ),
   ((-halfMapHeight + chunkZ * chunkSize + tileZ : Int) : ℚ))

/-- `worldToTile` (lines 496-505). -/
def worldToTile (x z : ℚ) : TileAddress :=
  let diffX : ℚ := x + (halfMapWidth : ℚ)
  let diffZ : ℚ := z + (halfMapHeight : ℚ)
  let chunkX : Int := ⌊diffX / (chunkSize : ℚ)⌋
  let chunkZ : Int := ⌊diffZ / (chunkSize : ℚ)⌋
  let tileX : Int := ⌊diffX - ((chunkX * chunkSize : Int) : ℚ)⌋
  let tileZ : Int := ⌊diffZ - ((chunkZ * chunkSize : Int) : ℚ)⌋
  { chunkX := chunkX, chunkZ := chunkZ, tileX := tileX, tileZ := tileZ }

/-- `getChunkBackgroundEntityId` (lines 507-514); `0` is the invalid id. -/
def getChunkBackgroundEntityId (chunkX chunkZ : Int) : EntityId :=
  if chunkX < 0 ∨ chunkX ≥ numChunkColumns ∨ chunkZ < 0 ∨ chunkZ ≥ numChunkRows then
    0
  else
    firstChunkEntityId + 3 * chunkX * numChunkColumns + 3 * chunkZ

/-- `getChunkBackgroundTiles` (lines 516-532). -/
def getChunkBackgroundTiles (view : View) (chunkBackgroundEntityId : EntityId) :
    Option TilesData :=
  match view.Entities chunkBackgroundEntityId with
  | none => none
  | some chunkBackgroundEntity =>
    match chunkBackgroundEntity.tilemapTiles with
    | none => none
    | some tilemapTilesComponent =>
      some { tilesetColumns := tilemapTilesComponent.tileset_columns
             tilesetRows := tilemapTilesComponent.tileset_rows
             tilesetIds := tilemapTilesComponent.tileset_ids }

/-! ## Movement validator (lines 400-457) -/

/-- The read `s[i]` of a `std::string` of chars with an `int` index: the stored char
below the length of the string, the terminating char 0 at its length, and `none`
elsewhere, where the read has no defined behaviour in the source. -/
def charAt (s : List Int) (i : Int) : Option Int :=
  if i < 0 then none
  else if i.toNat = s.length then some 0
  else s[i.toNat]?

/-- `validatePoint` (lines 432-457). Where the read of the tileset column has no
defined behaviour in the source (tile data that ends before the index), the point is
rejected here; no statement about the source is drawn from that case. -/
def validatePoint (context : ClientContext) (coordinates : Vector3) : Bool :=
  let x := coordinates.x
  let z := coordinates.y
  let a := worldToTile x z
  if a.chunkX < 0 ∨ a.chunkX ≥ numChunkColumns ∨ a.chunkZ < 0 ∨ a.chunkZ ≥ numChunkRows ∨
      a.tileX < 0 ∨ a.tileX ≥ chunkSize ∨ a.tileZ < 0 ∨ a.tileZ ≥ chunkSize then
    false
  else
    let chunkBackgroundEntityId := getChunkBackgroundEntityId a.chunkX a.chunkZ
    match getChunkBackgroundTiles context.view chunkBackgroundEntityId with
    | none => false
    | some tiles =>
      match charAt tiles.tilesetColumns (a.tileZ * chunkSize + a.tileX) with
      | none => false
      | some tilesetColumn => if tilesetColumn > 2 then false else true

/-- `validatePosition` (lines 400-430). -/
def validatePosition (context : ClientContext) (coordinates : Vector3) : Bool :=
  let topRight : Vector3 :=
    { coordinates with x := coordinates.x + 1 / 2 * characterSize
                       y := coordinates.y + 1 / 2 * characterSize }
  if !validatePoint context topRight then false
  else
    let topLeft : Vector3 :=
      { coordinates with x := coordinates.x - 1 / 2 * characterSize
                         y := coordinates.y + 1 / 2 * characterSize }
    if !validatePoint context topLeft then false
    else
      let bottomRight : Vector3 :=
        { coordinates with x := coordinates.x + 1 / 2 * characterSize
                           y := coordinates.y - 1 / 2 * characterSize }
      if !validatePoint context bottomRight then false
      else
        let bottomLeft : Vector3 :=
          { coordinates with x := coordinates.x - 1 / 2 * characterSize
                             y := coordinates.y - 1 / 2 * characterSize }
        if !validatePoint context bottomLeft then false
        else true

/-! ## Direction change and movement (lines 355-398, 467-476) -/

/-- `clientDirectionChange` (lines 467-476). -/
def clientDirectionChange (context : ClientContext) (g : RandStream) :
    ClientContext × RandStream :=
  let (r1, g1) := rand g
  if r1 % 100 ≥ directionChangeChancePercent then
    (context, g1)
  else
    let (r2, g2) := rand g1
    ({ context with
        direction := Direction.fromValue ((context.direction.value + 1 + r2 % 3) % 4) }, g2)

/-- The candidate position that `move` computes before validating it (lines 356-373). -/
def moveCandidate (context : ClientContext) (positionData : PositionData)
    (tickPeriodMs : Int) : Vector3 :=
  let coordinates := positionData.coordinates
  let s : ℚ := 1 / 1000 * (tickPeriodMs : ℚ) * velocity
  match context.direction with
  | .kUp => { coordinates with y := coordinates.y + s }
  | .kDown => { coordinates with y := coordinates.y - s }
  | .kLeft => { coordinates with x := coordinates.x - s }
  | .kRight => { coordinates with x := coordinates.x + s }

/-- `move` (lines 355-398). -/
def move (context : ClientContext) (positionData : PositionData) (tickPeriodMs : Int)
    (g : RandStream) : ClientContext × RandStream :=
  let coordinates := moveCandidate context positionData tickPeriodMs
  if !validatePosition context coordinates then
    clientDirectionChange context g
  else
    let connection :=
      SendComponentUpdate context.connection (.position context.clientEntityId coordinates)
    let improbablePosition : Coordinates :=
      { x := coordinates.x, y := coordinates.z, z := coordinates.y }
    let dx := improbablePosition.x - context.lastImprobablePosition.x
    let dy := improbablePosition.y - context.lastImprobablePosition.y
    let dz := improbablePosition.z - context.lastImprobablePosition.z
    let difference2 := dx * dx + dy * dy + dz * dz
    if difference2 > improbablePositionUpdateDistance then
      ({ context with
          connection := SendComponentUpdate connection
            (.improbablePosition context.clientEntityId improbablePosition)
          lastImprobablePosition := improbablePosition }, g)
    else
      ({ context with connection := connection }, g)

end BotClient

namespace TilesSeeder

open BotClient (EntityId Entity TilemapTilesData Coordinates)

/-! ## The chunk entity loop of the tiles seeder (tiles.cpp, lines 262-306)

The generated chunks (`generateMapChunks`, declared in `tiles/map.h`) are a parameter
of the loop. Of every entity the `Metadata` entity type and the `TilemapTiles`
component are kept. -/

/-- One layer of a generated chunk (declared in `tiles/map.h`, which is not part of
the sources at hand): the three tile strings. -/
structure ChunkLayerData where
  tilesetColumns : List Int
  tilesetRows : List Int
  tilesetIds : List Int
deriving DecidableEq, Repr

/-- A generated chunk, one element of the result of `generateMapChunks`. -/
structure ChunkData where
  position : Coordinates
  backgroundTiles : ChunkLayerData
  foregroundTiles : ChunkLayerData
deriving DecidableEq, Repr

/-- The `entities` map of the seeder together with its `nextEntityId` counter. -/
structure SeederState where
  entities : EntityId → Option Entity
  nextEntityId : EntityId

/-- The assignment `entities[id] = entity`. -/
def assign (entities : EntityId → Option Entity) (id : EntityId) (entity : Entity) :
    EntityId → Option Entity :=
  fun i => if i = id then some entity else entities i

/-- The state on entry to the chunk loop (lines 120-262): entities 1 to 9 are the
bootstrap, drawable, tileset and canvas entities, none of which has tilemap tiles,
and the next id is 10. -/
def initialState : SeederState :=
  { entities := fun i =>
      if i = 1 then some { metadata := some "bootstrap", tilemapTiles := none }
      else if i = 2 then some { metadata := some "drawable", tilemapTiles := none }
      else if 3 ≤ i ∧ i ≤ 8 then some { metadata := some "tileset", tilemapTiles := none }
      else if i = 9 then some { metadata := some "canvas", tilemapTiles := none }
      else none
    nextEntityId := 10 }

/-- The body of the chunk loop (lines 266-305). -/
def seedChunk (state : SeederState) (chunk : ChunkData) : SeederState :=
  let nextEntityId := state.nextEntityId
  let chunkBackgroundEntity : Entity :=
    { metadata := some "chunk_background"
      tilemapTiles := some { tileset_columns := chunk.backgroundTiles.tilesetColumns
                             tileset_rows := chunk.backgroundTiles.tilesetRows
                             tileset_ids := chunk.backgroundTiles.tilesetIds } }
  let backgroundEntityId := nextEntityId
  let entities := assign state.entities backgroundEntityId chunkBackgroundEntity
  let nextEntityId := nextEntityId + 1
  let chunkForegroundEntity : Entity :=
    { metadata := some "chunk_foreground"
      tilemapTiles := some { tileset_columns := chunk.foregroundTiles.tilesetColumns
                             tileset_rows := chunk.foregroundTiles.tilesetRows
                             tileset_ids := chunk.foregroundTiles.tilesetIds } }
  let foregroundEntityId := nextEntityId
  let entities := assign entities foregroundEntityId chunkForegroundEntity
  let nextEntityId := nextEntityId + 1
  let chunkEntity : Entity := { metadata := some "chunk", tilemapTiles := none }
  let entities := assign entities nextEntityId chunkEntity
  let nextEntityId := nextEntityId + 1
  { entities := entities, nextEntityId := nextEntityId }

/-- The chunk loop over the generated chunks, in iteration order. -/
def seedChunks (chunks : List ChunkData) : SeederState :=
  chunks.foldl seedChunk initialState

end TilesSeeder

namespace BotClient

/-! ## Remaining constants (lines 102-120) and the tick period (line 296) -/

def connectionRetries : Nat := 3
def connectionRetryDelayMs : Int := 1500
def clientPingTimeoutMs : Int := 999
def clientDirectionChangeTimeoutMs : Int := 250
def clientStatusTimeoutMs : Int := 2449
def tickRateHz : Int := 30
def meanHeartbeatMovingExponentialFactor : ℚ := 1 / 2
def meanTimeSinceLastHeartbeatPongExponentialFactor : ℚ := 1 / 20

/-- The conversion `(int) d` of a `double`: truncation toward zero. -/
def castToInt (d : ℚ) : Int :=
  if 0 ≤ d then ⌊d⌋ else ⌈d⌉

/-- The tick period `(int) (1000.0 / (double) tickRateHz)` of `main` (line 296). -/
def tickPeriodMs : Int :=
  castToInt (1000 / (tickRateHz : ℚ))

/-! ## Executor and session state of `main` (lines 191-211) -/

/-- The functions that `main` schedules on the executor. -/
inductive ExecutorTask where
  | clientPingTick
  | clientDirectionChange
  | clientStatus
deriving DecidableEq, Repr

/-- Modelled from the spec: a scheduled task of the executor (`shoveler/executor.h`
is not among the sources), with its period and callback; `handle` stands for the
`ShovelerExecutorCallback` pointer that identifies it. -/
structure ShovelerExecutorCallback where
  handle : Nat
  timeoutMs : Int
  intervalMs : Int
  task : ExecutorTask
deriving DecidableEq, Repr

/-- Modelled from the spec: the executor is its list of scheduled tasks, oldest first,
and the handle that the next scheduled task gets. -/
structure ShovelerExecutor where
  callbacks : List ShovelerExecutorCallback
  nextHandle : Nat
deriving DecidableEq, Repr

/-- Modelled from the spec: `shovelerExecutorCreateDirect`, an executor without tasks. -/
def shovelerExecutorCreateDirect : ShovelerExecutor :=
  { callbacks := [], nextHandle := 0 }

/-- Modelled from the spec: `shovelerExecutorSchedulePeriodic` creates a task and
returns the executor with it and its handle. -/
def shovelerExecutorSchedulePeriodic (executor : ShovelerExecutor) (timeoutMs intervalMs : Int)
    (task : ExecutorTask) : ShovelerExecutor × Nat :=
  ({ callbacks := executor.callbacks ++
       [{ handle := executor.nextHandle, timeoutMs := timeoutMs, intervalMs := intervalMs
          task := task }]
     nextHandle := executor.nextHandle + 1 }, executor.nextHandle)

/-- Modelled from the spec: `shovelerExecutorRemoveCallback` removes the task with the
given handle; a `NULL` callback (`none`) or a handle that is not scheduled removes
nothing. -/
def shovelerExecutorRemoveCallback (executor : ShovelerExecutor) (callback : Option Nat) :
    ShovelerExecutor :=
  match callback with
  | none => executor
  | some handle =>
    { executor with callbacks := executor.callbacks.filter (fun c => c.handle ≠ handle) }

/-- The local variables of `main` that its event handlers capture (lines 191-211). -/
structure Session where
  executor : ShovelerExecutor
  disconnected : Bool
  context : ClientContext
  clientPingTickCallback : Option Nat
  clientDirectionChangeCallback : Option Nat
  clientStatusCallback : Option Nat

/-- The session that `main` sets up after connecting (lines 191-211); `now` is the
value of `g_get_monotonic_time()` at line 205. -/
def initialSession (view : View) (now : Int) : Session :=
  let executor := shovelerExecutorCreateDirect
  let context : ClientContext :=
    { connection := { sent := [] }
      view := view
      clientEntityId := 0
      direction := .kUp
      lastImprobablePosition := { x := 0, y := 0, z := 0 }
      lastHeartbeatPongTime := now
      meanHeartbeatLatencyMs := 0
      meanTimeSinceLastHeartbeatPongMs := 1 / 2 * (clientPingTimeoutMs : ℚ) }
  let (executor, clientDirectionChangeCallback) :=
    shovelerExecutorSchedulePeriodic executor 0 clientDirectionChangeTimeoutMs
      .clientDirectionChange
  let (executor, clientStatusCallback) :=
    shovelerExecutorSchedulePeriodic executor 0 clientStatusTimeoutMs .clientStatus
  { executor := executor
    disconnected := false
    context := context
    clientPingTickCallback := none
    clientDirectionChangeCallback := some clientDirectionChangeCallback
    clientStatusCallback := some clientStatusCallback }

/-! ## Event handlers (lines 239-290) -/

/-- The `OnDisconnect` handler (lines 239-242). -/
def onDisconnect (session : Session) : Session :=
  { session with disconnected := true }

/-- The values of `worker::Authority`. -/
inductive Authority where
  | kNotAuthoritative
  | kAuthoritative
  | kAuthorityLossImminent
deriving DecidableEq, Repr

/-- The `OnAuthorityChange<Client>` handler (lines 261-272). -/
def onClientAuthorityChange (session : Session) (opEntityId : EntityId)
    (opAuthority : Authority) : Session :=
  if opAuthority = .kAuthoritative then
    let (executor, clientPingTickCallback) :=
      shovelerExecutorSchedulePeriodic session.executor 0 clientPingTimeoutMs .clientPingTick
    { session with
        executor := executor
        clientPingTickCallback := some clientPingTickCallback
        context := { session.context with clientEntityId := opEntityId } }
  else if opAuthority = .kNotAuthoritative then
    { session with
        executor := shovelerExecutorRemoveCallback session.executor
          session.clientPingTickCallback
        context := { session.context with clientEntityId := 0 }
        disconnected := true }
  else
    session

set_option linter.unusedVariables false in
/-- The `OnComponentUpdate<ClientHeartbeatPong>` handler (lines 278-290):
`opUpdateLastUpdatedTime` is the optional `last_updated_time` of the update and `now`
the value of `g_get_monotonic_time()` at line 287. The entity id of the update is only
compared for a warning. The `double` field `meanHeartbeatLatencyMs` is an exact
rational here: the definition gives the value that the formula of one update denotes,
and the rounding of doubles, which adds up when updates are iterated, is not modelled. -/
def onClientHeartbeatPongUpdate (session : Session) (opEntityId : EntityId)
    (opUpdateLastUpdatedTime : Option Int) (now : Int) : Session :=
  match opUpdateLastUpdatedTime with
  | none => session
  | some lastUpdatedTime =>
    let lastHeartbeatPongTime := now
    let meanHeartbeatLatencyMs :=
      session.context.meanHeartbeatLatencyMs * (1 - meanHeartbeatMovingExponentialFactor)
    let meanHeartbeatLatencyMs :=
      meanHeartbeatLatencyMs + meanHeartbeatMovingExponentialFactor * (1 / 1000) *
        ((lastHeartbeatPongTime - lastUpdatedTime : Int) : ℚ)
    { session with
        context := { session.context with
          lastHeartbeatPongTime := lastHeartbeatPongTime
          meanHeartbeatLatencyMs := meanHeartbeatLatencyMs } }

/-- The condition `!disconnected` of the tick loop (line 297). -/
def tickLoopCondition (session : Session) : Bool :=
  !session.disconnected

/-! ## Scheduled tasks (lines 459-490) -/

/-- `clientPingTick` (lines 459-465); `now` is the value of `g_get_monotonic_time()`. -/
def clientPingTick (context : ClientContext) (now : Int) : ClientContext :=
  { context with
      connection := SendComponentUpdate context.connection
        (.clientHeartbeatPing context.clientEntityId now) }

/-- The figures of the status line that `clientStatus` logs, without the entity count. -/
structure StatusReport where
  latencyMs : ℚ
  desyncMs : ℚ
deriving DecidableEq, Repr

/-- `clientStatus` (lines 478-490); `now` is the value of `g_get_monotonic_time()`. -/
def clientStatus (context : ClientContext) (now : Int) : ClientContext × StatusReport :=
  let meanTimeSinceLastHeartbeatPongMs :=
    context.meanTimeSinceLastHeartbeatPongMs *
      (1 - meanTimeSinceLastHeartbeatPongExponentialFactor)
  let meanTimeSinceLastHeartbeatPongMs :=
    meanTimeSinceLastHeartbeatPongMs + meanTimeSinceLastHeartbeatPongExponentialFactor *
      (1 / 1000) * ((now - context.lastHeartbeatPongTime : Int) : ℚ)
  ({ context with meanTimeSinceLastHeartbeatPongMs := meanTimeSinceLastHeartbeatPongMs },
   { latencyMs := context.meanHeartbeatLatencyMs
     desyncMs := |meanTimeSinceLastHeartbeatPongMs - 1 / 2 * (clientPingTimeoutMs : ℚ)| })

/-! ## Startup: connection loop and starting region (lines 169-232) -/

/-- What the connection loop does, in order. -/
inductive StartupAction where
  | connect (attempt : Nat)
  | sleep (delayMs : Int)
deriving DecidableEq, Repr

/-- The connection loop (lines 171-183) from iteration `i` with `remaining` iterations
to go. `connected k` tells whether the attempt of iteration `k` gives a connected
connection; `last` is the state of `connectionOption` before the iteration. The result
is the state of `connectionOption` after the loop and the actions taken. -/
def connectionLoopFrom (connected : Nat → Bool) (i : Nat) (remaining : Nat) (last : Bool) :
    Bool × List StartupAction :=
  match remaining with
  | 0 => (last, [])
  | remaining + 1 =>
    if connected i then
      (true, [.connect i])
    else
      let actions :=
        if i ≠ connectionRetries - 1 then
          [StartupAction.connect i, StartupAction.sleep connectionRetryDelayMs]
        else
          [StartupAction.connect i]
      let (result, later) := connectionLoopFrom connected (i + 1) remaining false
      (result, actions ++ later)

/-- The loop `for(int i = 0; i < connectionRetries; i++)` of lines 171-183. -/
def connectionLoop (connected : Nat → Bool) : Bool × List StartupAction :=
  connectionLoopFrom connected 0 connectionRetries false

/-- The number of connection attempts among the actions. -/
def attempts (actions : List StartupAction) : Nat :=
  actions.countP (fun a => match a with
    | .connect _ => true
    | .sleep _ => false)

/-- The number of waits among the actions. -/
def waits (actions : List StartupAction) : Nat :=
  actions.countP (fun a => match a with
    | .connect _ => false
    | .sleep _ => true)

/-- The exit status of a process. -/
inductive ExitStatus where
  | EXIT_SUCCESS
  | EXIT_FAILURE
deriving DecidableEq, Repr

/-- Lines 169-188 of `main`: the connection loop and the check after it. The result is
the exit status when `main` returns there (`none` when it goes on) and the actions
of the loop. -/
def mainConnect (connected : Nat → Bool) : Option ExitStatus × List StartupAction :=
  let (isConnected, actions) := connectionLoop connected
  if !isConnected then (some .EXIT_FAILURE, actions) else (none, actions)

/-- The C function `isspace` in the default locale. -/
def isspace (c : Char) : Bool :=
  c.toNat = 32 || (9 ≤ c.toNat && c.toNat ≤ 13)

/-- The value of a run of leading decimal digits. -/
def atoiDigits (value : Int) : List Char → Int
  | [] => value
  | c :: rest =>
    if 48 ≤ c.toNat ∧ c.toNat ≤ 57 then atoiDigits (value * 10 + ((c.toNat : Int) - 48)) rest
    else value

/-- The C function `atoi` (without overflow): leading white space, an optional sign,
then decimal digits; anything after them is ignored. -/
def atoi (s : String) : Int :=
  match s.toList.dropWhile isspace with
  | [] => 0
  | c :: rest =>
    if c.toNat = 45 then -atoiDigits 0 rest
    else if c.toNat = 43 then atoiDigits 0 rest
    else atoiDigits 0 (c :: rest)

/-- The `shoveler::ChunkRegion` sent with the create client entity request. -/
structure ChunkRegion where
  min_x : Int
  min_z : Int
  size_x : Int
  size_z : Int
deriving DecidableEq, Repr

/-- The starting chunk region of lines 213-230; `GetWorkerFlag` is
`connection.GetWorkerFlag`. -/
def startingChunkRegion (GetWorkerFlag : String → Option String) : Option ChunkRegion :=
  let minXFlag := GetWorkerFlag "starting_chunk_min_x"
  let minZFlag := GetWorkerFlag "starting_chunk_min_z"
  let sizeXFlag := GetWorkerFlag "starting_chunk_size_x"
  let sizeZFlag := GetWorkerFlag "starting_chunk_size_z"
  match minXFlag, minZFlag, sizeXFlag, sizeZFlag with
  | some minXFlag, some _, some sizeXFlag, some sizeZFlag =>
    let minX := atoi minXFlag
    let minZ := atoi minXFlag
    let sizeX := atoi sizeXFlag
    let sizeZ := atoi sizeZFlag
    some { min_x := minX, min_z := minZ, size_x := sizeX, size_z := sizeZ }
  | _, _, _, _ => none

/-! ## End of tick (lines 321-325) -/

/-- The value `remainingNs` of line 322; the two times are values of
`g_get_monotonic_time()`, which counts microseconds. -/
def remainingNs (tickPeriodMs tickStartTime tickEndTime : Int) : Int :=
  1000 * 1000 * tickPeriodMs - (tickEndTime - tickStartTime)

/-- The end of tick sleep of lines 323-325: the nanoseconds slept, `none` when the
loop does not sleep. -/
def tickSleep (tickPeriodMs tickStartTime tickEndTime : Int) : Option Int :=
  if remainingNs tickPeriodMs tickStartTime tickEndTime > 0 then
    some (remainingNs tickPeriodMs tickStartTime tickEndTime)
  else
    none

end BotClient

namespace BotClient

/-! ## Dispatch of inbound ops and the steps of a tick (lines 239-319) -/

/-- The inbound ops for which `main` registers a callback (lines 239-294); `other` is
any op that only the view handles. -/
inductive Op where
  | disconnect (reason : String)
  | metrics
  | addEntity (entityId : EntityId)
  | removeEntity (entityId : EntityId)
  | addComponentClient (entityId : EntityId)
  | authorityChangeClient (entityId : EntityId) (authority : Authority)
  | removeComponentClient (entityId : EntityId)
  | componentUpdateClientHeartbeatPong (entityId : EntityId) (lastUpdatedTime : Option Int)
  | commandResponseCreateClientEntity (requestId : Int) (statusCode : Int)
  | other
deriving DecidableEq, Repr

/-- One op of `dispatcher.Process` (line 300) at monotonic time `now`. The view, which
is the dispatcher, first updates itself by its own callbacks, here the parameter
`viewUpdate`; then the callback that `main` registered for the op runs. The callbacks
for metrics, entities, the Client component and the command response only log or
forward metrics. -/
def dispatch (viewUpdate : View → Op → View) (session : Session) (op : Op) (now : Int) :
    Session :=
  let session : Session :=
    { session with
        context := { session.context with view := viewUpdate session.context.view op } }
  match op with
  | .disconnect _ => onDisconnect session
  | .authorityChangeClient entityId authority =>
    onClientAuthorityChange session entityId authority
  | .componentUpdateClientHeartbeatPong entityId lastUpdatedTime =>
    onClientHeartbeatPongUpdate session entityId lastUpdatedTime now
  | _ => session

/-- A scheduled task run by `shovelerExecutorUpdateNow` (line 301): the task gets the
context only. -/
def runTask (session : Session) (task : ExecutorTask) (now : Int) (g : RandStream) :
    Session × RandStream :=
  match task with
  | .clientPingTick => ({ session with context := clientPingTick session.context now }, g)
  | .clientDirectionChange =>
    let (context, g) := clientDirectionChange session.context g
    ({ session with context := context }, g)
  | .clientStatus =>
    ({ session with context := (clientStatus session.context now).1 }, g)

/-- What a tick can do to the session: handle an inbound op, run a scheduled task, or
call `move` (line 313). -/
inductive TickStep where
  | op (op : Op)
  | task (task : ExecutorTask)
  | move (positionData : PositionData)
deriving DecidableEq, Repr

/-- One step of a tick at monotonic time `now`. -/
def tickStep (viewUpdate : View → Op → View) (state : Session × RandStream)
    (step : TickStep × Int) : Session × RandStream :=
  match step.1 with
  | .op op => (dispatch viewUpdate state.1 op step.2, state.2)
  | .task task => runTask state.1 task step.2 state.2
  | .move positionData =>
    let (context, g) := move state.1.context positionData tickPeriodMs state.2
    ({ state.1 with context := context }, g)

/-- A sequence of steps, each with the monotonic time at which it happens. -/
def tickSteps (viewUpdate : View → Op → View) (state : Session × RandStream)
    (steps : List (TickStep × Int)) : Session × RandStream :=
  steps.foldl (tickStep viewUpdate) state

/-- The inbound ops of a sequence handled in order. -/
def processOps (viewUpdate : View → Op → View) (session : Session)
    (ops : List (Op × Int)) : Session :=
  ops.foldl (fun s op => dispatch viewUpdate s op.1 op.2) session

/-- The authority handler run on a sequence of Client authority-change events. -/
def processAuthorityChanges (session : Session) (events : List (EntityId × Authority)) :
    Session :=
  events.foldl (fun s event => onClientAuthorityChange s event.1 event.2) session

/-- The number of ping tasks that the executor holds. -/
def pingTasks (executor : ShovelerExecutor) : Nat :=
  executor.callbacks.countP (fun c => decide (c.task = .clientPingTick))

end BotClient

namespace BotClient

/-! ## Concrete data used to exercise the definitions -/

/-- Tile data of a chunk of grass: one hundred tiles of tileset column 0. -/
def grassTiles : TilemapTilesData :=
  { tileset_columns := List.replicate 100 0
    tileset_rows := List.replicate 100 0
    tileset_ids := List.replicate 100 1 }

/-- A chunk background entity of grass. -/
def grassEntity : Entity :=
  { metadata := some "chunk_background", tilemapTiles := some grassTiles }

/-- A view in which every id is a grass chunk background. -/
def grassView : View :=
  { Entities := fun _ => some grassEntity }

/-- The grass view without entity 642, the id computed for chunk (10, 10). -/
def holeView : View :=
  { Entities := fun i => if i = 642 then none else some grassEntity }

/-- Tile data without any tile: three empty strings. -/
def bareTiles : TilemapTilesData :=
  { tileset_columns := [], tileset_rows := [], tileset_ids := [] }

/-- A view in which every id is a chunk background whose tile data is empty. -/
def bareView : View :=
  { Entities := fun _ => some { metadata := some "chunk_background"
                                tilemapTiles := some bareTiles } }

/-- The position data of an agent at the origin. -/
def originPosition : PositionData :=
  { coordinates := { x := 0, y := 0, z := 0 } }

/-- The position data of an agent just below the upper edge of the map: its footprint
reaches up to y = 99.98. -/
def edgePosition : PositionData :=
  { coordinates := { x := 0, y := 9953 / 100, z := 0 } }

/-- A generated chunk of grass at the lower left corner of the map. -/
def grassChunk : TilesSeeder.ChunkData :=
  { position := { x := -95, y := 0, z := -95 }
    backgroundTiles :=
      { tilesetColumns := List.replicate 100 0
        tilesetRows := List.replicate 100 0
        tilesetIds := List.replicate 100 1 }
    foregroundTiles :=
      { tilesetColumns := List.replicate 100 0
        tilesetRows := List.replicate 100 0
        tilesetIds := List.replicate 100 0 } }

/-- Worker flags that ask for the starting region with minimum (1, 2) and size (3, 4). -/
def exampleFlags : String → Option String := fun name =>
  if name = "starting_chunk_min_x" then some "1"
  else if name = "starting_chunk_min_z" then some "2"
  else if name = "starting_chunk_size_x" then some "3"
  else if name = "starting_chunk_size_z" then some "4"
  else none

/-- A client context for entity 7 that faces up and has sent nothing. -/
def exampleContext (view : View) : ClientContext :=
  { connection := { sent := [] }
    view := view
    clientEntityId := 7
    direction := .kUp
    lastImprobablePosition := { x := 0, y := 0, z := 0 }
    lastHeartbeatPongTime := 0
    meanHeartbeatLatencyMs := 0
    meanTimeSinceLastHeartbeatPongMs := 999 / 2 }

end BotClient

namespace BotClient

/-! ## Coordinate mapper: helper lemmas -/

/-- `2 * halfMapWidth / chunkSize` is 20. -/
lemma numChunkColumns_eq : numChunkColumns = 20 := by decide

/-- `2 * halfMapHeight / chunkSize` is 20. -/
lemma numChunkRows_eq : numChunkRows = 20 := by decide

lemma chunkSize_eq : chunkSize = 10 := rfl

lemma worldToTile_chunkX (x z : ℚ) : (worldToTile x z).chunkX = ⌊(x + 100) / 10⌋ := by
  simp [worldToTile, halfMapWidth, chunkSize]

lemma worldToTile_chunkZ (x z : ℚ) : (worldToTile x z).chunkZ = ⌊(z + 100) / 10⌋ := by
  simp [worldToTile, halfMapHeight, chunkSize]

lemma worldToTile_tileX (x z : ℚ) :
    (worldToTile x z).tileX = ⌊x + 100⌋ - ⌊(x + 100) / 10⌋ * 10 := by
  simp only [worldToTile, halfMapWidth, chunkSize]
  rw [Int.floor_sub_int]
  norm_num

lemma worldToTile_tileZ (x z : ℚ) :
    (worldToTile x z).tileZ = ⌊z + 100⌋ - ⌊(z + 100) / 10⌋ * 10 := by
  simp only [worldToTile, halfMapHeight, chunkSize]
  rw [Int.floor_sub_int]
  norm_num

/-- Floor of a tenth: `⌊d / 10⌋ = c` exactly when `10 c ≤ d < 10 (c + 1)`. -/
lemma floor_div_ten_eq_iff (d : ℚ) (c : Int) :
    ⌊d / 10⌋ = c ↔ (c : ℚ) * 10 ≤ d ∧ d < ((c : ℚ) + 1) * 10 := by
  rw [Int.floor_eq_iff, le_div_iff₀ (by norm_num : (0 : ℚ) < 10),
    div_lt_iff₀ (by norm_num : (0 : ℚ) < 10)]

/-- The remainder of the floor after removing the whole tens lies in `[0, 10)`. -/
lemma floor_sub_tens_bounds (d : ℚ) :
    0 ≤ ⌊d⌋ - ⌊d / 10⌋ * 10 ∧ ⌊d⌋ - ⌊d / 10⌋ * 10 < 10 := by
  obtain ⟨h1, h2⟩ := (floor_div_ten_eq_iff d ⌊d / 10⌋).mp rfl
  constructor
  · have : ⌊d / 10⌋ * 10 ≤ ⌊d⌋ := by
      rw [Int.le_floor]; push_cast; exact h1
    omega
  · have : ⌊d⌋ < (⌊d / 10⌋ + 1) * 10 := by
      rw [Int.floor_lt]; push_cast; exact h2
    omega

/-- Dividing the floor by ten and flooring again is flooring the tenth. -/
lemma floor_floor_div_ten (d : ℚ) : ⌊((⌊d⌋ : Int) : ℚ) / 10⌋ = ⌊d / 10⌋ := by
  rw [floor_div_ten_eq_iff]
  obtain ⟨h1, h2⟩ := (floor_div_ten_eq_iff d ⌊d / 10⌋).mp rfl
  have a1 : ⌊d / 10⌋ * 10 ≤ ⌊d⌋ := by
    rw [Int.le_floor]; push_cast; exact h1
  have a2 : ⌊d⌋ < (⌊d / 10⌋ + 1) * 10 := by
    rw [Int.floor_lt]; push_cast; exact h2
  constructor
  · exact_mod_cast a1
  · exact_mod_cast a2

/-- Two tile addresses with equal components are equal. -/
lemma tileAddress_eq (a b : TileAddress) (h1 : a.chunkX = b.chunkX)
    (h2 : a.chunkZ = b.chunkZ) (h3 : a.tileX = b.tileX) (h4 : a.tileZ = b.tileZ) :
    a = b := by
  cases a; cases b; simp_all

/-- The address of a position is the address of its integer part. -/
lemma worldToTile_floor (x z : ℚ) :
    worldToTile ((⌊x⌋ : Int) : ℚ) ((⌊z⌋ : Int) : ℚ) = worldToTile x z := by
  have hx : ((⌊x⌋ : Int) : ℚ) + 100 = ((⌊x + 100⌋ : Int) : ℚ) := by
    rw [show x + 100 = x + ((100 : Int) : ℚ) by norm_num, Int.floor_add_int]; push_cast; ring
  have hz : ((⌊z⌋ : Int) : ℚ) + 100 = ((⌊z + 100⌋ : Int) : ℚ) := by
    rw [show z + 100 = z + ((100 : Int) : ℚ) by norm_num, Int.floor_add_int]; push_cast; ring
  apply tileAddress_eq
  · rw [worldToTile_chunkX, worldToTile_chunkX, hx, floor_floor_div_ten]
  · rw [worldToTile_chunkZ, worldToTile_chunkZ, hz, floor_floor_div_ten]
  · rw [worldToTile_tileX, worldToTile_tileX, hx, floor_floor_div_ten, Int.floor_intCast]
  · rw [worldToTile_tileZ, worldToTile_tileZ, hz, floor_floor_div_ten, Int.floor_intCast]

/-- The reference corner of the tile of `(x, z)` is `(⌊x⌋, ⌊z⌋)`. -/
lemma tileToWorld_worldToTile (x z : ℚ) :
    tileToWorld (worldToTile x z).chunkX (worldToTile x z).chunkZ
      (worldToTile x z).tileX (worldToTile x z).tileZ
      = (((⌊x⌋ : Int) : ℚ), ((⌊z⌋ : Int) : ℚ)) := by
  rw [worldToTile_tileX, worldToTile_tileZ, worldToTile_chunkX, worldToTile_chunkZ]
  have hx : ⌊x + 100⌋ = ⌊x⌋ + 100 := by
    rw [show x + 100 = x + ((100 : Int) : ℚ) by norm_num, Int.floor_add_int]
  have hz : ⌊z + 100⌋ = ⌊z⌋ + 100 := by
    rw [show z + 100 = z + ((100 : Int) : ℚ) by norm_num, Int.floor_add_int]
  simp only [tileToWorld, halfMapWidth, halfMapHeight, chunkSize, hx, hz]
  congr 1 <;> congr 1 <;> ring

/-- The tile address lies in `[0, chunkSize)` and is the remainder of the floored
shifted coordinate. -/
lemma worldToTile_tile_bounds (x z : ℚ) :
    (0 ≤ (worldToTile x z).tileX ∧ (worldToTile x z).tileX < chunkSize) ∧
    (0 ≤ (worldToTile x z).tileZ ∧ (worldToTile x z).tileZ < chunkSize) ∧
    (worldToTile x z).chunkX * chunkSize + (worldToTile x z).tileX
      = ⌊x + (halfMapWidth : ℚ)⌋ ∧
    (worldToTile x z).chunkZ * chunkSize + (worldToTile x z).tileZ
      = ⌊z + (halfMapHeight : ℚ)⌋ := by
  rw [worldToTile_tileX, worldToTile_tileZ, worldToTile_chunkX, worldToTile_chunkZ]
  have hx := floor_sub_tens_bounds (x + 100)
  have hz := floor_sub_tens_bounds (z + 100)
  have hc : ((halfMapWidth : Int) : ℚ) = 100 := by norm_num [halfMapWidth]
  have hd : ((halfMapHeight : Int) : ℚ) = 100 := by norm_num [halfMapHeight]
  rw [hc, hd, chunkSize_eq]
  omega

/-- The address of a position from the integer parts of its coordinates, by integer
division and remainder. -/
lemma worldToTile_of_floor (x z : ℚ) (fx fz : Int) (hx : ⌊x⌋ = fx) (hz : ⌊z⌋ = fz) :
    worldToTile x z =
      { chunkX := (fx + 100) / 10, chunkZ := (fz + 100) / 10
        tileX := (fx + 100) % 10, tileZ := (fz + 100) % 10 } := by
  have key : ∀ f : Int, ⌊((f : ℚ) + 100) / 10⌋ = (f + 100) / 10 := by
    intro f
    rw [floor_div_ten_eq_iff]
    have h1 : (f + 100) / 10 * 10 ≤ f + 100 := by omega
    have h2 : f + 100 < ((f + 100) / 10 + 1) * 10 := by omega
    constructor
    · exact_mod_cast h1
    · exact_mod_cast h2
  have kf : ∀ f : Int, ⌊(f : ℚ) + 100⌋ = f + 100 := by
    intro f
    rw [show (f : ℚ) + 100 = ((f + 100 : Int) : ℚ) by push_cast; ring, Int.floor_intCast]
  rw [← worldToTile_floor, hx, hz]
  apply tileAddress_eq
  · rw [worldToTile_chunkX, key]
  · rw [worldToTile_chunkZ, key]
  · rw [worldToTile_tileX, key, kf]
    show fx + 100 - (fx + 100) / 10 * 10 = (fx + 100) % 10
    omega
  · rw [worldToTile_tileZ, key, kf]
    show fz + 100 - (fz + 100) / 10 * 10 = (fz + 100) % 10
    omega

/-- The tile index of an address that passes the range check lies in `[0, 100)`. -/
lemma tile_index_bounds (tileX tileZ : Int) (hx : 0 ≤ tileX ∧ tileX < chunkSize)
    (hz : 0 ≤ tileZ ∧ tileZ < chunkSize) :
    0 ≤ tileZ * chunkSize + tileX ∧ tileZ * chunkSize + tileX < chunkSize * chunkSize := by
  rw [chunkSize_eq] at *
  constructor <;> omega

/-- The address of the origin: chunk (10, 10), tile (0, 0). -/
lemma worldToTile_origin :
    worldToTile 0 0 = { chunkX := 10, chunkZ := 10, tileX := 0, tileZ := 0 } := by
  rw [worldToTile_of_floor 0 0 0 0 (by norm_num) (by norm_num)]
  decide

/-- The chunk address of a point is in the map exactly when the point is. -/
lemma chunk_in_range_iff (x z : ℚ) :
    (0 ≤ (worldToTile x z).chunkX ∧ (worldToTile x z).chunkX < numChunkColumns ∧
      0 ≤ (worldToTile x z).chunkZ ∧ (worldToTile x z).chunkZ < numChunkRows) ↔
    (-100 ≤ x ∧ x < 100 ∧ -100 ≤ z ∧ z < 100) := by
  rw [worldToTile_chunkX, worldToTile_chunkZ, numChunkColumns_eq, numChunkRows_eq,
    Int.floor_nonneg, Int.floor_nonneg, Int.floor_lt, Int.floor_lt,
    le_div_iff₀ (by norm_num : (0 : ℚ) < 10), le_div_iff₀ (by norm_num : (0 : ℚ) < 10),
    div_lt_iff₀ (by norm_num : (0 : ℚ) < 10), div_lt_iff₀ (by norm_num : (0 : ℚ) < 10)]
  norm_num
  constructor <;> rintro ⟨h1, h2, h3, h4⟩ <;> refine ⟨?_, ?_, ?_, ?_⟩ <;> linarith

/-- Every id computed by `getChunkBackgroundEntityId` is a multiple of three. -/
lemma getChunkBackgroundEntityId_mod_three (chunkX chunkZ : Int) :
    (getChunkBackgroundEntityId chunkX chunkZ : Int) % 3 = 0 := by
  unfold getChunkBackgroundEntityId
  split
  · rfl
  · rw [numChunkColumns_eq, firstChunkEntityId]
    show ((12 : Int) + 3 * chunkX * 20 + 3 * chunkZ) % 3 = 0
    omega

end BotClient

namespace BotClient

/-! ## Movement validator: helper lemmas -/

/-- The four corners of the footprint that `validatePosition` tests, in test order. -/
lemma validatePosition_eq (context : ClientContext) (p : Vector3) :
    validatePosition context p =
      (validatePoint context { p with x := p.x + 9 / 20, y := p.y + 9 / 20 } &&
       validatePoint context { p with x := p.x - 9 / 20, y := p.y + 9 / 20 } &&
       validatePoint context { p with x := p.x + 9 / 20, y := p.y - 9 / 20 } &&
       validatePoint context { p with x := p.x - 9 / 20, y := p.y - 9 / 20 }) := by
  have h : (1 : ℚ) / 2 * characterSize = 9 / 20 := by norm_num [characterSize]
  simp only [validatePosition, h]
  cases validatePoint context { p with x := p.x + 9 / 20, y := p.y + 9 / 20 } <;>
  cases validatePoint context { p with x := p.x - 9 / 20, y := p.y + 9 / 20 } <;>
  cases validatePoint context { p with x := p.x + 9 / 20, y := p.y - 9 / 20 } <;>
  cases validatePoint context { p with x := p.x - 9 / 20, y := p.y - 9 / 20 } <;> rfl

/-- A point whose chunk has no background tile data in the view is rejected. -/
lemma validatePoint_of_tiles_none (context : ClientContext) (c : Vector3)
    (h : getChunkBackgroundTiles context.view
      (getChunkBackgroundEntityId (worldToTile c.x c.y).chunkX (worldToTile c.x c.y).chunkZ)
        = none) :
    validatePoint context c = false := by
  simp only [validatePoint, h]
  split <;> rfl

/-- A defined read of a string: the stored element below the length, 0 at the length. -/
lemma charAt_eq_some_iff (s : List Int) (i column : Int) :
    charAt s i = some column ↔
      0 ≤ i ∧ (s[i.toNat]? = some column ∨ ((s.length : Int) = i ∧ column = 0)) := by
  unfold charAt
  split_ifs with h1 h2
  · constructor
    · intro h; exact absurd h (by simp)
    · rintro ⟨h, _⟩; omega
  · have hn : s[i.toNat]? = none := by rw [h2]; simp
    constructor
    · intro h
      simp only [Option.some.injEq] at h
      exact ⟨by omega, Or.inr ⟨by omega, h.symm⟩⟩
    · rintro ⟨_, h | ⟨_, h⟩⟩
      · rw [hn] at h; exact absurd h (by simp)
      · rw [h]
  · constructor
    · intro h; exact ⟨by omega, Or.inl h⟩
    · rintro ⟨h0, h | ⟨h, _⟩⟩
      · exact h
      · exfalso; omega

/-- When `validatePoint` accepts: the range check passes, the tile data is in the view
and the read of the tileset column gives a char of at most 2. -/
lemma validatePoint_eq_true_iff (context : ClientContext) (coordinates : Vector3) :
    validatePoint context coordinates = true ↔
      (0 ≤ (worldToTile coordinates.x coordinates.y).chunkX ∧
        (worldToTile coordinates.x coordinates.y).chunkX < numChunkColumns) ∧
      (0 ≤ (worldToTile coordinates.x coordinates.y).chunkZ ∧
        (worldToTile coordinates.x coordinates.y).chunkZ < numChunkRows) ∧
      (0 ≤ (worldToTile coordinates.x coordinates.y).tileX ∧
        (worldToTile coordinates.x coordinates.y).tileX < chunkSize) ∧
      (0 ≤ (worldToTile coordinates.x coordinates.y).tileZ ∧
        (worldToTile coordinates.x coordinates.y).tileZ < chunkSize) ∧
      ∃ entity tiles column,
        context.view.Entities
          (getChunkBackgroundEntityId (worldToTile coordinates.x coordinates.y).chunkX
            (worldToTile coordinates.x coordinates.y).chunkZ) = some entity ∧
        entity.tilemapTiles = some tiles ∧
        charAt tiles.tileset_columns
          ((worldToTile coordinates.x coordinates.y).tileZ * chunkSize
            + (worldToTile coordinates.x coordinates.y).tileX) = some column ∧
        column ≤ 2 := by
  simp only [validatePoint, getChunkBackgroundTiles]
  split
  · rename_i h
    constructor
    · intro hf; exact absurd hf (by simp)
    · rintro ⟨⟨h1, h2⟩, ⟨h3, h4⟩, ⟨h5, h6⟩, ⟨h7, h8⟩, _⟩
      omega
  · rename_i h
    have hr : (0 ≤ (worldToTile coordinates.x coordinates.y).chunkX ∧
        (worldToTile coordinates.x coordinates.y).chunkX < numChunkColumns) ∧
      (0 ≤ (worldToTile coordinates.x coordinates.y).chunkZ ∧
        (worldToTile coordinates.x coordinates.y).chunkZ < numChunkRows) ∧
      (0 ≤ (worldToTile coordinates.x coordinates.y).tileX ∧
        (worldToTile coordinates.x coordinates.y).tileX < chunkSize) ∧
      (0 ≤ (worldToTile coordinates.x coordinates.y).tileZ ∧
        (worldToTile coordinates.x coordinates.y).tileZ < chunkSize) := by
      refine ⟨⟨?_, ?_⟩, ⟨?_, ?_⟩, ⟨?_, ?_⟩, ⟨?_, ?_⟩⟩ <;> omega
    cases hv : context.view.Entities
        (getChunkBackgroundEntityId (worldToTile coordinates.x coordinates.y).chunkX
          (worldToTile coordinates.x coordinates.y).chunkZ) with
    | none => simp
    | some entity =>
      cases ht : entity.tilemapTiles with
      | none => simp [ht]
      | some tiles =>
        simp only [ht]
        cases hc : charAt tiles.tileset_columns
            ((worldToTile coordinates.x coordinates.y).tileZ * chunkSize
              + (worldToTile coordinates.x coordinates.y).tileX) with
        | none =>
          constructor
          · intro hf; exact absurd hf (by simp)
          · rintro ⟨_, _, _, _, e, t, column, he, hte, hcol, _⟩
            cases he
            rw [ht] at hte
            cases hte
            rw [hc] at hcol
            exact absurd hcol (by simp)
        | some column =>
          constructor
          · intro hacc
            refine ⟨hr.1, hr.2.1, hr.2.2.1, hr.2.2.2, entity, tiles, column, rfl, ht, hc, ?_⟩
            by_contra hgt
            simp only [if_pos (not_le.mp hgt)] at hacc
            exact absurd hacc (by simp)
          · rintro ⟨_, _, _, _, e, t, column', he, hte, hcol, hle⟩
            cases he
            rw [ht] at hte
            cases hte
            rw [hc] at hcol
            cases hcol
            simp only [if_neg (not_lt.mpr hle)]

/-- The tile data that `getChunkBackgroundTiles` returns for an entity with tiles. -/
lemma getChunkBackgroundTiles_of_entity (view : View) (id : EntityId) (entity : Entity)
    (tiles : TilemapTilesData) (he : view.Entities id = some entity)
    (ht : entity.tilemapTiles = some tiles) :
    getChunkBackgroundTiles view id =
      some { tilesetColumns := tiles.tileset_columns, tilesetRows := tiles.tileset_rows
             tilesetIds := tiles.tileset_ids } := by
  simp only [getChunkBackgroundTiles, he, ht]

/-- Without an entity with tiles `getChunkBackgroundTiles` returns nothing. -/
lemma getChunkBackgroundTiles_eq_none (view : View) (id : EntityId)
    (h : ¬ ∃ entity tiles, view.Entities id = some entity ∧ entity.tilemapTiles = some tiles) :
    getChunkBackgroundTiles view id = none := by
  cases he : view.Entities id with
  | none => simp only [getChunkBackgroundTiles, he]
  | some entity =>
    cases ht : entity.tilemapTiles with
    | none => simp only [getChunkBackgroundTiles, he, ht]
    | some tiles => exact absurd ⟨entity, tiles, he, ht⟩ h

/-- When the range check has passed, the tile data is found and the read of the tileset
column is defined, `validatePoint` decides by the char read. -/
lemma validatePoint_of_read (context : ClientContext) (coordinates : Vector3)
    (tiles : TilesData) (column : Int)
    (hr : ¬ ((worldToTile coordinates.x coordinates.y).chunkX < 0 ∨
      (worldToTile coordinates.x coordinates.y).chunkX ≥ numChunkColumns ∨
      (worldToTile coordinates.x coordinates.y).chunkZ < 0 ∨
      (worldToTile coordinates.x coordinates.y).chunkZ ≥ numChunkRows ∨
      (worldToTile coordinates.x coordinates.y).tileX < 0 ∨
      (worldToTile coordinates.x coordinates.y).tileX ≥ chunkSize ∨
      (worldToTile coordinates.x coordinates.y).tileZ < 0 ∨
      (worldToTile coordinates.x coordinates.y).tileZ ≥ chunkSize))
    (ht : getChunkBackgroundTiles context.view
      (getChunkBackgroundEntityId (worldToTile coordinates.x coordinates.y).chunkX
        (worldToTile coordinates.x coordinates.y).chunkZ) = some tiles)
    (hc : charAt tiles.tilesetColumns
      ((worldToTile coordinates.x coordinates.y).tileZ * chunkSize
        + (worldToTile coordinates.x coordinates.y).tileX) = some column) :
    validatePoint context coordinates = decide (column ≤ 2) := by
  simp only [validatePoint, if_neg hr, ht, hc]
  split_ifs with hgt
  · simp [not_le.mpr hgt]
  · simp [not_lt.mp hgt]

/-- A point that fails the range check is rejected. -/
lemma validatePoint_of_range_fail (context : ClientContext) (coordinates : Vector3)
    (hr : (worldToTile coordinates.x coordinates.y).chunkX < 0 ∨
      (worldToTile coordinates.x coordinates.y).chunkX ≥ numChunkColumns ∨
      (worldToTile coordinates.x coordinates.y).chunkZ < 0 ∨
      (worldToTile coordinates.x coordinates.y).chunkZ ≥ numChunkRows ∨
      (worldToTile coordinates.x coordinates.y).tileX < 0 ∨
      (worldToTile coordinates.x coordinates.y).tileX ≥ chunkSize ∨
      (worldToTile coordinates.x coordinates.y).tileZ < 0 ∨
      (worldToTile coordinates.x coordinates.y).tileZ ≥ chunkSize) :
    validatePoint context coordinates = false := by
  simp only [validatePoint, if_pos hr]

/-- A read of a string at an index from 0 to its length is defined: it gives the
stored element below the length and 0 at the length. -/
lemma charAt_defined (s : List Int) (i : Int) (h0 : 0 ≤ i) (h1 : i ≤ (s.length : Int)) :
    ((s.length : Int) = i ∧ s[i.toNat]? = none ∧ charAt s i = some 0) ∨
    (i < (s.length : Int) ∧
      ∃ column : Int, s[i.toNat]? = some column ∧ charAt s i = some column) := by
  rcases eq_or_lt_of_le h1 with h | h
  · refine Or.inl ⟨h.symm, ?_, (charAt_eq_some_iff _ _ _).mpr ⟨h0, Or.inr ⟨h.symm, rfl⟩⟩⟩
    have : i.toNat = s.length := by omega
    rw [this]; simp
  · have hi : i.toNat < s.length := by omega
    exact Or.inr ⟨h, s[i.toNat], List.getElem?_eq_getElem hi,
      (charAt_eq_some_iff _ _ _).mpr ⟨h0, Or.inl (List.getElem?_eq_getElem hi)⟩⟩

/-- `validatePosition` accepts exactly when all four corners are accepted. -/
lemma validatePosition_eq_true_iff (context : ClientContext) (p : Vector3) :
    validatePosition context p = true ↔
      validatePoint context { p with x := p.x + 9 / 20, y := p.y + 9 / 20 } = true ∧
      validatePoint context { p with x := p.x - 9 / 20, y := p.y + 9 / 20 } = true ∧
      validatePoint context { p with x := p.x + 9 / 20, y := p.y - 9 / 20 } = true ∧
      validatePoint context { p with x := p.x - 9 / 20, y := p.y - 9 / 20 } = true := by
  rw [validatePosition_eq]
  simp only [Bool.and_eq_true, and_assoc]

/-- A point outside the map is rejected, whatever the view holds. -/
lemma validatePoint_outside (context : ClientContext) (c : Vector3)
    (h : c.x < -100 ∨ 100 ≤ c.x ∨ c.y < -100 ∨ 100 ≤ c.y) :
    validatePoint context c = false := by
  by_contra hv
  rw [Bool.not_eq_false, validatePoint_eq_true_iff] at hv
  obtain ⟨⟨h1, h2⟩, ⟨h3, h4⟩, _⟩ := hv
  have := (chunk_in_range_iff c.x c.y).mp ⟨h1, h2, h3, h4⟩
  rcases h with h | h | h | h <;> linarith [this.1, this.2.1, this.2.2.1, this.2.2.2]

/-- A point inside the map is accepted when the tile data of every chunk of the map is
in the view and every read of a tileset column gives a char of at most 2. -/
lemma validatePoint_inside (context : ClientContext)
    (hview : ∀ chunkX chunkZ : Int, 0 ≤ chunkX → chunkX < numChunkColumns → 0 ≤ chunkZ →
      chunkZ < numChunkRows →
      ∃ tiles, getChunkBackgroundTiles context.view
          (getChunkBackgroundEntityId chunkX chunkZ) = some tiles ∧
        ∀ i : Int, 0 ≤ i → i < chunkSize * chunkSize →
          ∃ column : Int, charAt tiles.tilesetColumns i = some column ∧ column ≤ 2)
    (c : Vector3) (h : -100 ≤ c.x ∧ c.x < 100 ∧ -100 ≤ c.y ∧ c.y < 100) :
    validatePoint context c = true := by
  obtain ⟨h1, h2, h3, h4⟩ := (chunk_in_range_iff c.x c.y).mpr h
  obtain ⟨⟨t1, t2⟩, ⟨t3, t4⟩, _⟩ := worldToTile_tile_bounds c.x c.y
  obtain ⟨tiles, ht, hcol⟩ := hview _ _ h1 h2 h3 h4
  have hr : ¬ ((worldToTile c.x c.y).chunkX < 0 ∨
      (worldToTile c.x c.y).chunkX ≥ numChunkColumns ∨ (worldToTile c.x c.y).chunkZ < 0 ∨
      (worldToTile c.x c.y).chunkZ ≥ numChunkRows ∨ (worldToTile c.x c.y).tileX < 0 ∨
      (worldToTile c.x c.y).tileX ≥ chunkSize ∨ (worldToTile c.x c.y).tileZ < 0 ∨
      (worldToTile c.x c.y).tileZ ≥ chunkSize) := by omega
  obtain ⟨column, hc, hle⟩ :=
    hcol ((worldToTile c.x c.y).tileZ * chunkSize + (worldToTile c.x c.y).tileX)
      (by rw [chunkSize_eq] at *; omega) (by rw [chunkSize_eq] at *; omega)
  simp only [validatePoint, if_neg hr, ht, hc, if_neg (not_lt.mpr hle)]

/-- Reading one of the hundred tiles of the grass chunk gives column 0. -/
lemma charAt_grass (i : Int) (h0 : 0 ≤ i) (h1 : i < 100) :
    charAt grassTiles.tileset_columns i = some 0 := by
  rw [charAt_eq_some_iff]
  refine ⟨h0, Or.inl ?_⟩
  have hi : i.toNat < 100 := by omega
  rw [show grassTiles.tileset_columns = List.replicate 100 0 from rfl,
    List.getElem?_replicate, if_pos hi]

/-- In the grass view every chunk of the map has tile data without blocking tiles. -/
lemma grassView_traversable (chunkX chunkZ : Int) :
    ∃ tiles, getChunkBackgroundTiles (exampleContext grassView).view
        (getChunkBackgroundEntityId chunkX chunkZ) = some tiles ∧
      ∀ i : Int, 0 ≤ i → i < chunkSize * chunkSize →
        ∃ column : Int, charAt tiles.tilesetColumns i = some column ∧ column ≤ 2 := by
  refine ⟨_, rfl, ?_⟩
  intro i h0 h1
  exact ⟨0, charAt_grass i h0 (by rw [chunkSize_eq] at h1; omega), by norm_num⟩

end BotClient

namespace BotClient

/-! ## Direction change and movement: helper lemmas -/

/-- A direction change never sends anything and keeps every field but the direction. -/
lemma clientDirectionChange_fields (context : ClientContext) (g : RandStream) :
    (clientDirectionChange context g).1.connection = context.connection ∧
    (clientDirectionChange context g).1.lastImprobablePosition
      = context.lastImprobablePosition ∧
    (clientDirectionChange context g).1.clientEntityId = context.clientEntityId := by
  simp only [clientDirectionChange, rand]
  split <;> simp

/-- The rotation `(d + 1 + r mod 3) mod 4` of a direction never gives the direction. -/
lemma rotate_ne (d : Direction) (r : Nat) :
    Direction.fromValue ((d.value + 1 + r % 3) % 4) ≠ d := by
  have h : r % 3 < 3 := Nat.mod_lt _ (by norm_num)
  interval_cases (r % 3) <;> cases d <;> decide

/-- The direction after `clientDirectionChange` differs from the one before exactly when
the first draw is below the change chance modulo 100. -/
lemma clientDirectionChange_direction_ne_iff (context : ClientContext) (g : RandStream) :
    (clientDirectionChange context g).1.direction ≠ context.direction ↔
      g 0 % 100 < directionChangeChancePercent := by
  simp only [clientDirectionChange, rand]
  split
  · rename_i h
    simp only [ne_eq, not_true_eq_false, false_iff, not_lt]
    exact h
  · rename_i h
    simp only [ne_eq, rotate_ne, not_false_eq_true, true_iff]
    exact not_le.mp h

/-- What `move` does when the validator rejects the candidate. -/
lemma move_of_reject (context : ClientContext) (positionData : PositionData)
    (tickPeriodMs : Int) (g : RandStream)
    (h : validatePosition context (moveCandidate context positionData tickPeriodMs) = false) :
    move context positionData tickPeriodMs g = clientDirectionChange context g := by
  simp only [move, h, Bool.not_false, if_true]

/-- What `move` sends when the validator accepts the candidate. -/
lemma move_of_accept (context : ClientContext) (positionData : PositionData)
    (tickPeriodMs : Int) (g : RandStream)
    (h : validatePosition context (moveCandidate context positionData tickPeriodMs) = true) :
    ∃ rest : List ComponentUpdate,
      (move context positionData tickPeriodMs g).1.connection.sent
        = context.connection.sent ++
          ComponentUpdate.position context.clientEntityId
            (moveCandidate context positionData tickPeriodMs) :: rest ∧
      ∀ u ∈ rest, ∀ id c, u ≠ ComponentUpdate.position id c := by
  simp only [move, h, Bool.not_true, Bool.false_eq_true, if_false, SendComponentUpdate]
  split
  · refine ⟨[ComponentUpdate.improbablePosition context.clientEntityId
        { x := (moveCandidate context positionData tickPeriodMs).x
          y := (moveCandidate context positionData tickPeriodMs).z
          z := (moveCandidate context positionData tickPeriodMs).y }], ?_, ?_⟩
    · simp
    · intro u hu id c
      simp only [List.mem_singleton] at hu
      rw [hu]
      simp
  · exact ⟨[], by simp, by simp⟩

/-- From the origin, facing up, a 33 ms tick proposes (0, 0.0495, 0). -/
lemma moveCandidate_origin (view : View) :
    moveCandidate (exampleContext view) originPosition 33
      = { x := 0, y := 99 / 2000, z := 0 } := by
  simp only [moveCandidate, exampleContext, originPosition, velocity]
  norm_num

/-- From the edge position, facing up, a 33 ms tick proposes (0, 99.5795, 0). -/
lemma moveCandidate_edge (view : View) :
    moveCandidate (exampleContext view) edgePosition 33
      = { x := 0, y := 199159 / 2000, z := 0 } := by
  simp only [moveCandidate, exampleContext, edgePosition, velocity]
  norm_num

/-- In the grass view the candidate from the origin is accepted. -/
lemma example_accept :
    validatePosition (exampleContext grassView)
      (moveCandidate (exampleContext grassView) originPosition 33) = true := by
  rw [moveCandidate_origin, validatePosition_eq_true_iff]
  refine ⟨?_, ?_, ?_, ?_⟩ <;>
    apply validatePoint_inside _ (fun cx cz _ _ _ _ => grassView_traversable cx cz) <;>
    norm_num

/-- In the grass view the candidate from the edge position is rejected: its upper
corners lie above the map. -/
lemma example_reject :
    validatePosition (exampleContext grassView)
      (moveCandidate (exampleContext grassView) edgePosition 33) = false := by
  rw [moveCandidate_edge, validatePosition_eq, validatePoint_outside _ _ (by norm_num)]
  rfl

end BotClient

namespace TilesSeeder

open BotClient (EntityId Entity TilemapTilesData Coordinates)

/-! ## Tiles seeder: helper lemmas -/

/-- The loop over one more chunk is one more run of the loop body. -/
lemma seedChunks_snoc (chunks : List ChunkData) (chunk : ChunkData) :
    seedChunks (chunks ++ [chunk]) = seedChunk (seedChunks chunks) chunk := by
  simp [seedChunks, List.foldl_append]

/-- After `n` chunks the next entity id is `10 + 3 n`. -/
lemma seedChunks_nextEntityId (chunks : List ChunkData) :
    (seedChunks chunks).nextEntityId = 10 + 3 * (chunks.length : Int) := by
  induction chunks using List.reverseRecOn with
  | nil => rfl
  | append_singleton chunks chunk ih =>
    rw [seedChunks_snoc]
    simp only [seedChunk, ih, List.length_append, List.length_singleton]
    push_cast
    ring

/-- The seeder stores no tilemap tiles at an id that is a multiple of three. -/
lemma seedChunks_no_tiles_at_multiple_of_three (chunks : List ChunkData) (i : Int)
    (hi : i % 3 = 0) :
    ((seedChunks chunks).entities i).bind Entity.tilemapTiles = none := by
  induction chunks using List.reverseRecOn with
  | nil =>
    simp only [seedChunks, List.foldl_nil, initialState]
    split_ifs <;> rfl
  | append_singleton chunks chunk ih =>
    rw [seedChunks_snoc]
    have hn := seedChunks_nextEntityId chunks
    simp only [seedChunk, assign, hn]
    split_ifs with h1 h2 h3
    · rfl
    · have h2' : i = (10 + 3 * (chunks.length : Int) + 1 : Int) := h2
      omega
    · have h3' : i = (10 + 3 * (chunks.length : Int) : Int) := h3
      omega
    · exact ih

/-- The ids of the `k`-th generated chunk: background `10 + 3 k`, foreground
`11 + 3 k`, chunk container `12 + 3 k`. -/
lemma seedChunks_kth (chunks : List ChunkData) (k : Nat) (chunk : ChunkData)
    (hk : chunks[k]? = some chunk) :
    (seedChunks chunks).entities (10 + 3 * (k : Int)) =
      some { metadata := some "chunk_background"
             tilemapTiles := some { tileset_columns := chunk.backgroundTiles.tilesetColumns
                                    tileset_rows := chunk.backgroundTiles.tilesetRows
                                    tileset_ids := chunk.backgroundTiles.tilesetIds } } ∧
    (seedChunks chunks).entities (11 + 3 * (k : Int)) =
      some { metadata := some "chunk_foreground"
             tilemapTiles := some { tileset_columns := chunk.foregroundTiles.tilesetColumns
                                    tileset_rows := chunk.foregroundTiles.tilesetRows
                                    tileset_ids := chunk.foregroundTiles.tilesetIds } } ∧
    (seedChunks chunks).entities (12 + 3 * (k : Int)) =
      some { metadata := some "chunk", tilemapTiles := none } := by
  induction chunks using List.reverseRecOn with
  | nil => simp at hk
  | append_singleton chunks last ih =>
    rw [seedChunks_snoc]
    have hn := seedChunks_nextEntityId chunks
    simp only [seedChunk, assign, hn]
    by_cases hlt : k < chunks.length
    · rw [List.getElem?_append_left hlt] at hk
      obtain ⟨i1, i2, i3⟩ := ih hk
      have e1 : ¬ (10 + 3 * (k : Int) = 10 + 3 * (chunks.length : Int) + 1 + 1) := by omega
      have e2 : ¬ (10 + 3 * (k : Int) = 10 + 3 * (chunks.length : Int) + 1) := by omega
      have e3 : ¬ (10 + 3 * (k : Int) = 10 + 3 * (chunks.length : Int)) := by omega
      have f1 : ¬ (11 + 3 * (k : Int) = 10 + 3 * (chunks.length : Int) + 1 + 1) := by omega
      have f2 : ¬ (11 + 3 * (k : Int) = 10 + 3 * (chunks.length : Int) + 1) := by omega
      have f3 : ¬ (11 + 3 * (k : Int) = 10 + 3 * (chunks.length : Int)) := by omega
      have g1 : ¬ (12 + 3 * (k : Int) = 10 + 3 * (chunks.length : Int) + 1 + 1) := by omega
      have g2 : ¬ (12 + 3 * (k : Int) = 10 + 3 * (chunks.length : Int) + 1) := by omega
      have g3 : ¬ (12 + 3 * (k : Int) = 10 + 3 * (chunks.length : Int)) := by omega
      simp only [if_neg e1, if_neg e2, if_neg e3, if_neg f1, if_neg f2, if_neg f3,
        if_neg g1, if_neg g2, if_neg g3]
      exact ⟨i1, i2, i3⟩
    · have hlen : k = chunks.length := by
        have : k < (chunks ++ [last]).length := by
          by_contra hge
          rw [List.getElem?_eq_none (not_lt.mp hge)] at hk
          exact absurd hk (by simp)
        simp only [List.length_append, List.length_singleton] at this
        omega
      subst hlen
      rw [List.getElem?_append_right (le_refl _)] at hk
      simp only [Nat.sub_self, List.getElem?_cons_zero, Option.some.injEq] at hk
      subst hk
      have e1 : ¬ (10 + 3 * (chunks.length : Int) = 10 + 3 * (chunks.length : Int) + 1 + 1) := by
        omega
      have e2 : ¬ (10 + 3 * (chunks.length : Int) = 10 + 3 * (chunks.length : Int) + 1) := by
        omega
      have f1 : ¬ (11 + 3 * (chunks.length : Int) = 10 + 3 * (chunks.length : Int) + 1 + 1) := by
        omega
      have f2 : 11 + 3 * (chunks.length : Int) = 10 + 3 * (chunks.length : Int) + 1 := by
        omega
      have g1 : 12 + 3 * (chunks.length : Int) = 10 + 3 * (chunks.length : Int) + 1 + 1 := by
        omega
      simp only [if_neg e1, if_neg e2, if_neg f1, if_pos f2, if_pos g1, if_true, and_self]

end TilesSeeder

namespace BotClient

/-! ## The claims -/

/-- C1, as stated, fails: in a view whose chunk background entity has empty tile data,
the point (0, 0) has chunk (10, 10) and tile (0, 0), index 0; the read at index 0, the
length of the data, gives the string terminator 0, so `validatePoint` accepts the
point although no tileset column is stored at that index. -/
theorem validatePoint_iff_counterexample :
    worldToTile 0 0 = { chunkX := 10, chunkZ := 10, tileX := 0, tileZ := 0 } ∧
    validatePoint (exampleContext bareView) { x := 0, y := 0, z := 0 } = true ∧
    ¬ ∃ (entity : Entity) (tiles : TilemapTilesData) (column : Int),
      (exampleContext bareView).view.Entities
        (getChunkBackgroundEntityId (worldToTile 0 0).chunkX (worldToTile 0 0).chunkZ)
          = some entity ∧
      entity.tilemapTiles = some tiles ∧
      tiles.tileset_columns[((worldToTile 0 0).tileZ * chunkSize
        + (worldToTile 0 0).tileX).toNat]? = some column ∧
      column ≤ 2 := by
  have ha' := worldToTile_origin
  refine ⟨ha', ?_, ?_⟩
  · simp only [validatePoint, ha']
    decide
  · rintro ⟨entity, tiles, column, he, ht, hc, _⟩
    simp only [exampleContext, bareView, Option.some.injEq] at he
    subst he
    simp only [Option.some.injEq] at ht
    subst ht
    simp [bareTiles] at hc

/-- C1, amended: when the read of the tileset column is defined, that is when the tile
data found for the chunk holds at least `tileZ * chunkSize + tileX` columns,
`validatePoint` returns true exactly when the chunk address of the point is in the
map, its tile address is in `[0, chunkSize)`, the view holds the chunk background
entity with tile data, and either the tileset column stored at index
`tileZ * chunkSize + tileX` is at most 2 or the data holds exactly that many columns,
where the read gives the string terminator 0; in every other such case it returns
false. For tile data of `chunkSize ^ 2` columns this is the claim as stated. -/
theorem validatePoint_iff (context : ClientContext) (coordinates : Vector3)
    (hdefined : ∀ (entity : Entity) (tiles : TilemapTilesData),
      context.view.Entities
        (getChunkBackgroundEntityId (worldToTile coordinates.x coordinates.y).chunkX
          (worldToTile coordinates.x coordinates.y).chunkZ) = some entity →
      entity.tilemapTiles = some tiles →
      (worldToTile coordinates.x coordinates.y).tileZ * chunkSize
        + (worldToTile coordinates.x coordinates.y).tileX ≤ tiles.tileset_columns.length) :
    (validatePoint context coordinates = true ↔
      (0 ≤ (worldToTile coordinates.x coordinates.y).chunkX ∧
        (worldToTile coordinates.x coordinates.y).chunkX < numChunkColumns) ∧
      (0 ≤ (worldToTile coordinates.x coordinates.y).chunkZ ∧
        (worldToTile coordinates.x coordinates.y).chunkZ < numChunkRows) ∧
      (0 ≤ (worldToTile coordinates.x coordinates.y).tileX ∧
        (worldToTile coordinates.x coordinates.y).tileX < chunkSize) ∧
      (0 ≤ (worldToTile coordinates.x coordinates.y).tileZ ∧
        (worldToTile coordinates.x coordinates.y).tileZ < chunkSize) ∧
      ∃ entity tiles,
        context.view.Entities
          (getChunkBackgroundEntityId (worldToTile coordinates.x coordinates.y).chunkX
            (worldToTile coordinates.x coordinates.y).chunkZ) = some entity ∧
        entity.tilemapTiles = some tiles ∧
        ((∃ column : Int,
            tiles.tileset_columns[((worldToTile coordinates.x coordinates.y).tileZ
              * chunkSize + (worldToTile coordinates.x coordinates.y).tileX).toNat]?
              = some column ∧ column ≤ 2) ∨
          (tiles.tileset_columns.length : Int) =
            (worldToTile coordinates.x coordinates.y).tileZ * chunkSize
              + (worldToTile coordinates.x coordinates.y).tileX)) ∧
    ((∀ (entity : Entity) (tiles : TilemapTilesData),
        context.view.Entities
          (getChunkBackgroundEntityId (worldToTile coordinates.x coordinates.y).chunkX
            (worldToTile coordinates.x coordinates.y).chunkZ) = some entity →
        entity.tilemapTiles = some tiles →
        (tiles.tileset_columns.length : Int) = chunkSize ^ 2) →
      (validatePoint context coordinates = true ↔
        (0 ≤ (worldToTile coordinates.x coordinates.y).chunkX ∧
          (worldToTile coordinates.x coordinates.y).chunkX < numChunkColumns) ∧
        (0 ≤ (worldToTile coordinates.x coordinates.y).chunkZ ∧
          (worldToTile coordinates.x coordinates.y).chunkZ < numChunkRows) ∧
        (0 ≤ (worldToTile coordinates.x coordinates.y).tileX ∧
          (worldToTile coordinates.x coordinates.y).tileX < chunkSize) ∧
        (0 ≤ (worldToTile coordinates.x coordinates.y).tileZ ∧
          (worldToTile coordinates.x coordinates.y).tileZ < chunkSize) ∧
        ∃ entity tiles column,
          context.view.Entities
            (getChunkBackgroundEntityId (worldToTile coordinates.x coordinates.y).chunkX
              (worldToTile coordinates.x coordinates.y).chunkZ) = some entity ∧
          entity.tilemapTiles = some tiles ∧
          tiles.tileset_columns[((worldToTile coordinates.x coordinates.y).tileZ
            * chunkSize + (worldToTile coordinates.x coordinates.y).tileX).toNat]?
            = some column ∧ column ≤ 2)) := by
  have first : validatePoint context coordinates = true ↔
      (0 ≤ (worldToTile coordinates.x coordinates.y).chunkX ∧
        (worldToTile coordinates.x coordinates.y).chunkX < numChunkColumns) ∧
      (0 ≤ (worldToTile coordinates.x coordinates.y).chunkZ ∧
        (worldToTile coordinates.x coordinates.y).chunkZ < numChunkRows) ∧
      (0 ≤ (worldToTile coordinates.x coordinates.y).tileX ∧
        (worldToTile coordinates.x coordinates.y).tileX < chunkSize) ∧
      (0 ≤ (worldToTile coordinates.x coordinates.y).tileZ ∧
        (worldToTile coordinates.x coordinates.y).tileZ < chunkSize) ∧
      ∃ entity tiles,
        context.view.Entities
          (getChunkBackgroundEntityId (worldToTile coordinates.x coordinates.y).chunkX
            (worldToTile coordinates.x coordinates.y).chunkZ) = some entity ∧
        entity.tilemapTiles = some tiles ∧
        ((∃ column : Int,
            tiles.tileset_columns[((worldToTile coordinates.x coordinates.y).tileZ
              * chunkSize + (worldToTile coordinates.x coordinates.y).tileX).toNat]?
              = some column ∧ column ≤ 2) ∨
          (tiles.tileset_columns.length : Int) =
            (worldToTile coordinates.x coordinates.y).tileZ * chunkSize
              + (worldToTile coordinates.x coordinates.y).tileX) := by
    by_cases hr : (worldToTile coordinates.x coordinates.y).chunkX < 0 ∨
        (worldToTile coordinates.x coordinates.y).chunkX ≥ numChunkColumns ∨
        (worldToTile coordinates.x coordinates.y).chunkZ < 0 ∨
        (worldToTile coordinates.x coordinates.y).chunkZ ≥ numChunkRows ∨
        (worldToTile coordinates.x coordinates.y).tileX < 0 ∨
        (worldToTile coordinates.x coordinates.y).tileX ≥ chunkSize ∨
        (worldToTile coordinates.x coordinates.y).tileZ < 0 ∨
        (worldToTile coordinates.x coordinates.y).tileZ ≥ chunkSize
    · rw [validatePoint_of_range_fail context coordinates hr]
      constructor
      · intro h; exact absurd h (by simp)
      · rintro ⟨⟨h1, h2⟩, ⟨h3, h4⟩, ⟨h5, h6⟩, ⟨h7, h8⟩, _⟩
        omega
    · have hx : 0 ≤ (worldToTile coordinates.x coordinates.y).tileX ∧
          (worldToTile coordinates.x coordinates.y).tileX < chunkSize := by omega
      have hz : 0 ≤ (worldToTile coordinates.x coordinates.y).tileZ ∧
          (worldToTile coordinates.x coordinates.y).tileZ < chunkSize := by omega
      have hidx := tile_index_bounds _ _ hx hz
      by_cases hex : ∃ entity tiles,
          context.view.Entities
            (getChunkBackgroundEntityId (worldToTile coordinates.x coordinates.y).chunkX
              (worldToTile coordinates.x coordinates.y).chunkZ) = some entity ∧
          entity.tilemapTiles = some tiles
      · obtain ⟨entity, tiles, he, ht⟩ := hex
        have hfound := getChunkBackgroundTiles_of_entity _ _ entity tiles he ht
        have hle := hdefined entity tiles he ht
        rcases charAt_defined tiles.tileset_columns _ hidx.1 hle with
          ⟨hl, hn, hc⟩ | ⟨hl, column, hs, hc⟩
        · rw [validatePoint_of_read context coordinates _ 0 hr hfound hc]
          constructor
          · intro _
            exact ⟨by omega, by omega, hx, hz, entity, tiles, he, ht, Or.inr hl⟩
          · intro _
            decide
        · rw [validatePoint_of_read context coordinates _ column hr hfound hc]
          constructor
          · intro h
            exact ⟨by omega, by omega, hx, hz, entity, tiles, he, ht,
              Or.inl ⟨column, hs, of_decide_eq_true h⟩⟩
          · rintro ⟨_, _, _, _, entity', tiles', he', ht', hcase⟩
            rw [he] at he'
            cases he'
            rw [ht] at ht'
            cases ht'
            rcases hcase with ⟨column', hs', hle'⟩ | hl'
            · rw [hs] at hs'
              cases hs'
              exact decide_eq_true hle'
            · exfalso; omega
      · rw [validatePoint_of_tiles_none context coordinates
          (getChunkBackgroundTiles_eq_none _ _ hex)]
        constructor
        · intro h; exact absurd h (by simp)
        · rintro ⟨_, _, _, _, entity, tiles, he, ht, _⟩
          exact absurd ⟨entity, tiles, he, ht⟩ hex
  refine ⟨first, ?_⟩
  intro hwell
  rw [first]
  constructor
  · rintro ⟨h1, h2, h3, h4, entity, tiles, he, ht, hcase⟩
    have hidx := tile_index_bounds _ _ h3 h4
    have hl := hwell entity tiles he ht
    rcases hcase with ⟨column, hs, hle⟩ | hl'
    · exact ⟨h1, h2, h3, h4, entity, tiles, column, he, ht, hs, hle⟩
    · exfalso
      rw [hl, pow_two] at hl'
      exact absurd hl' (ne_of_gt hidx.2)
  · rintro ⟨h1, h2, h3, h4, entity, tiles, column, he, ht, hs, hle⟩
    exact ⟨h1, h2, h3, h4, entity, tiles, he, ht, Or.inl ⟨column, hs, hle⟩⟩

/-- Witness for the amended C1: in the grass view the point (0, 0) has index 0 in tile
data of 100 columns, so the read is defined; the column stored there is 0 and the
point is accepted. -/
theorem validatePoint_iff_witness :
    (∀ (entity : Entity) (tiles : TilemapTilesData),
      (exampleContext grassView).view.Entities
        (getChunkBackgroundEntityId (worldToTile 0 0).chunkX (worldToTile 0 0).chunkZ)
          = some entity →
      entity.tilemapTiles = some tiles →
      (worldToTile 0 0).tileZ * chunkSize + (worldToTile 0 0).tileX
        ≤ tiles.tileset_columns.length) ∧
    validatePoint (exampleContext grassView) { x := 0, y := 0, z := 0 } = true := by
  have hdef : ∀ (entity : Entity) (tiles : TilemapTilesData),
      (exampleContext grassView).view.Entities
        (getChunkBackgroundEntityId (worldToTile 0 0).chunkX (worldToTile 0 0).chunkZ)
          = some entity →
      entity.tilemapTiles = some tiles →
      (worldToTile 0 0).tileZ * chunkSize + (worldToTile 0 0).tileX
        ≤ tiles.tileset_columns.length := by
    intro entity tiles he ht
    simp only [exampleContext, grassView, Option.some.injEq] at he
    subst he
    simp only [grassEntity, Option.some.injEq] at ht
    subst ht
    rw [worldToTile_origin]
    decide
  refine ⟨hdef, (validatePoint_iff (exampleContext grassView) { x := 0, y := 0, z := 0 }
    hdef).1.mpr ?_⟩
  show (0 ≤ (worldToTile 0 0).chunkX ∧ (worldToTile 0 0).chunkX < numChunkColumns) ∧
    (0 ≤ (worldToTile 0 0).chunkZ ∧ (worldToTile 0 0).chunkZ < numChunkRows) ∧
    (0 ≤ (worldToTile 0 0).tileX ∧ (worldToTile 0 0).tileX < chunkSize) ∧
    (0 ≤ (worldToTile 0 0).tileZ ∧ (worldToTile 0 0).tileZ < chunkSize) ∧
    ∃ entity tiles,
      (exampleContext grassView).view.Entities
        (getChunkBackgroundEntityId (worldToTile 0 0).chunkX (worldToTile 0 0).chunkZ)
          = some entity ∧
      entity.tilemapTiles = some tiles ∧
      ((∃ column : Int,
          tiles.tileset_columns[((worldToTile 0 0).tileZ * chunkSize
            + (worldToTile 0 0).tileX).toNat]? = some column ∧ column ≤ 2) ∨
        (tiles.tileset_columns.length : Int) =
          (worldToTile 0 0).tileZ * chunkSize + (worldToTile 0 0).tileX)
  rw [worldToTile_origin]
  exact ⟨by decide, by decide, by decide, by decide, grassEntity, grassTiles, rfl, rfl,
    Or.inl ⟨0, by decide, by decide⟩⟩

/-- C2: `validatePosition` accepts exactly when `validatePoint` accepts each of the four
footprint corners `(p.x ± 0.45, p.y ± 0.45)`; in particular a candidate with a corner
in a chunk whose background tile data is not in the view is rejected. -/
theorem validatePosition_iff (context : ClientContext) (p : Vector3) :
    (validatePosition context p = true ↔
      validatePoint context { p with x := p.x + 9 / 20, y := p.y + 9 / 20 } = true ∧
      validatePoint context { p with x := p.x - 9 / 20, y := p.y + 9 / 20 } = true ∧
      validatePoint context { p with x := p.x + 9 / 20, y := p.y - 9 / 20 } = true ∧
      validatePoint context { p with x := p.x - 9 / 20, y := p.y - 9 / 20 } = true) ∧
    (1 / 2 * characterSize = 9 / 20) ∧
    ∀ c : Vector3,
      (c = { p with x := p.x + 9 / 20, y := p.y + 9 / 20 } ∨
       c = { p with x := p.x - 9 / 20, y := p.y + 9 / 20 } ∨
       c = { p with x := p.x + 9 / 20, y := p.y - 9 / 20 } ∨
       c = { p with x := p.x - 9 / 20, y := p.y - 9 / 20 }) →
      getChunkBackgroundTiles context.view
        (getChunkBackgroundEntityId (worldToTile c.x c.y).chunkX
          (worldToTile c.x c.y).chunkZ) = none →
      validatePosition context p = false := by
  refine ⟨?_, by norm_num [characterSize], ?_⟩
  · exact validatePosition_eq_true_iff context p
  · intro c hc hnone
    have hf := validatePoint_of_tiles_none context c hnone
    rw [validatePosition_eq]
    rcases hc with rfl | rfl | rfl | rfl <;> simp [hf]

/-- Witness for C2: in the grass view without entity 642 the upper right corner of the
footprint at the origin lies in chunk (10, 10), whose tile data is missing; the other
three corners pass, and the candidate is rejected. -/
theorem validatePosition_iff_witness :
    getChunkBackgroundTiles (exampleContext holeView).view
      (getChunkBackgroundEntityId (worldToTile (0 + 9 / 20) (0 + 9 / 20)).chunkX
        (worldToTile (0 + 9 / 20) (0 + 9 / 20)).chunkZ) = none ∧
    validatePoint (exampleContext holeView) { x := -9 / 20, y := 9 / 20, z := 0 } = true ∧
    validatePoint (exampleContext holeView) { x := 9 / 20, y := -9 / 20, z := 0 } = true ∧
    validatePoint (exampleContext holeView) { x := -9 / 20, y := -9 / 20, z := 0 } = true ∧
    validatePosition (exampleContext holeView) { x := 0, y := 0, z := 0 } = false := by
  have hnone : getChunkBackgroundTiles (exampleContext holeView).view
      (getChunkBackgroundEntityId (worldToTile (0 + 9 / 20) (0 + 9 / 20)).chunkX
        (worldToTile (0 + 9 / 20) (0 + 9 / 20)).chunkZ) = none := by
    have h1 : ⌊((0 : ℚ) + 9 / 20 + 100) / 10⌋ = 10 := by
      rw [floor_div_ten_eq_iff]; norm_num
    rw [worldToTile_chunkX, worldToTile_chunkZ, h1]
    rfl
  refine ⟨hnone, ?_, ?_, ?_,
    (validatePosition_iff (exampleContext holeView) { x := 0, y := 0, z := 0 }).2.2
      { x := 0 + 9 / 20, y := 0 + 9 / 20, z := 0 } (Or.inl rfl) hnone⟩
  · have ha := worldToTile_of_floor (-9 / 20) (9 / 20) (-1) 0
      (by rw [Int.floor_eq_iff]; norm_num) (by rw [Int.floor_eq_iff]; norm_num)
    simp only [validatePoint, ha]
    decide
  · have ha := worldToTile_of_floor (9 / 20) (-9 / 20) 0 (-1)
      (by rw [Int.floor_eq_iff]; norm_num) (by rw [Int.floor_eq_iff]; norm_num)
    simp only [validatePoint, ha]
    decide
  · have ha := worldToTile_of_floor (-9 / 20) (-9 / 20) (-1) (-1)
      (by rw [Int.floor_eq_iff]; norm_num) (by rw [Int.floor_eq_iff]; norm_num)
    simp only [validatePoint, ha]
    decide

/-- C3 fails on the code: the ids computed by `getChunkBackgroundEntityId`
(`12 + 60 chunkX + 3 chunkZ`, or 0) are never the background ids `10 + 3 k` of the
seeder; they are multiples of three, where the seeder stores no tilemap tiles (the id
of chunk (0, 0) is 12, the chunk container of the first generated chunk). The seeder
does give the `k`-th chunk the ids `10 + 3 k`, `11 + 3 k` and `12 + 3 k`. On a view
filled from the seeded entities `validatePoint` therefore rejects every point. -/
theorem getChunkBackgroundEntityId_not_seeded_background
    (chunks : List TilesSeeder.ChunkData) (chunkX chunkZ : Int) :
    (∀ k : Int, getChunkBackgroundEntityId chunkX chunkZ ≠ 10 + 3 * k) ∧
    ((TilesSeeder.seedChunks chunks).entities
        (getChunkBackgroundEntityId chunkX chunkZ)).bind Entity.tilemapTiles = none ∧
    (∀ (k : Nat) (chunk : TilesSeeder.ChunkData), chunks[k]? = some chunk →
      (TilesSeeder.seedChunks chunks).entities (10 + 3 * (k : Int)) =
        some { metadata := some "chunk_background"
               tilemapTiles :=
                 some { tileset_columns := chunk.backgroundTiles.tilesetColumns
                        tileset_rows := chunk.backgroundTiles.tilesetRows
                        tileset_ids := chunk.backgroundTiles.tilesetIds } } ∧
      (TilesSeeder.seedChunks chunks).entities (11 + 3 * (k : Int)) =
        some { metadata := some "chunk_foreground"
               tilemapTiles :=
                 some { tileset_columns := chunk.foregroundTiles.tilesetColumns
                        tileset_rows := chunk.foregroundTiles.tilesetRows
                        tileset_ids := chunk.foregroundTiles.tilesetIds } } ∧
      (TilesSeeder.seedChunks chunks).entities (12 + 3 * (k : Int)) =
        some { metadata := some "chunk", tilemapTiles := none }) ∧
    (getChunkBackgroundEntityId 0 0 = 12 ∧
      (TilesSeeder.seedChunks [grassChunk]).entities (getChunkBackgroundEntityId 0 0) =
        some { metadata := some "chunk", tilemapTiles := none }) ∧
    (∀ (context : ClientContext) (coordinates : Vector3),
      context.view.Entities = (TilesSeeder.seedChunks chunks).entities →
      validatePoint context coordinates = false) := by
  have hmod := getChunkBackgroundEntityId_mod_three
  refine ⟨?_, ?_, ?_, ?_, ?_⟩
  · intro k hk
    have h : @Eq Int (getChunkBackgroundEntityId chunkX chunkZ % 3) 0 := hmod chunkX chunkZ
    have hk' : @Eq Int (getChunkBackgroundEntityId chunkX chunkZ) (10 + 3 * k) := hk
    omega
  · exact TilesSeeder.seedChunks_no_tiles_at_multiple_of_three chunks _ (hmod chunkX chunkZ)
  · intro k chunk hk
    exact TilesSeeder.seedChunks_kth chunks k chunk hk
  · refine ⟨by decide, ?_⟩
    have h := (TilesSeeder.seedChunks_kth [grassChunk] 0 grassChunk rfl).2.2
    exact h
  · intro context coordinates hview
    apply validatePoint_of_tiles_none
    have h := TilesSeeder.seedChunks_no_tiles_at_multiple_of_three chunks _
      (hmod (worldToTile coordinates.x coordinates.y).chunkX
        (worldToTile coordinates.x coordinates.y).chunkZ)
    simp only [getChunkBackgroundTiles, hview]
    cases he : (TilesSeeder.seedChunks chunks).entities
        (getChunkBackgroundEntityId (worldToTile coordinates.x coordinates.y).chunkX
          (worldToTile coordinates.x coordinates.y).chunkZ) with
    | none => rfl
    | some entity =>
      rw [he] at h
      simp only [Option.some_bind] at h
      simp only [h]

/-- C4: `getChunkBackgroundEntityId` returns
`firstChunkEntityId + 3 * chunkX * numChunkColumns + 3 * chunkZ`, which is
`12 + 60 * chunkX + 3 * chunkZ`, for every in-range chunk address and the sentinel 0
for every other one; the ids of chunks (0,0) and (1,0) differ by
`3 * numChunkColumns = 60`; equal arguments give equal ids. -/
theorem getChunkBackgroundEntityId_spec (chunkX chunkZ : Int) :
    ((0 ≤ chunkX ∧ chunkX < numChunkColumns ∧ 0 ≤ chunkZ ∧ chunkZ < numChunkRows) →
      getChunkBackgroundEntityId chunkX chunkZ
          = firstChunkEntityId + 3 * chunkX * numChunkColumns + 3 * chunkZ ∧
        getChunkBackgroundEntityId chunkX chunkZ = 12 + 60 * chunkX + 3 * chunkZ) ∧
    (¬ (0 ≤ chunkX ∧ chunkX < numChunkColumns ∧ 0 ≤ chunkZ ∧ chunkZ < numChunkRows) →
      getChunkBackgroundEntityId chunkX chunkZ = 0) ∧
    getChunkBackgroundEntityId 1 0 - getChunkBackgroundEntityId 0 0 = 3 * numChunkColumns ∧
    3 * numChunkColumns = 60 ∧
    (∀ chunkX' chunkZ' : Int, chunkX = chunkX' → chunkZ = chunkZ' →
      getChunkBackgroundEntityId chunkX chunkZ
        = getChunkBackgroundEntityId chunkX' chunkZ') := by
  refine ⟨?_, ?_, by decide, by decide, ?_⟩
  · rintro ⟨h1, h2, h3, h4⟩
    have hc : ¬ (chunkX < 0 ∨ chunkX ≥ numChunkColumns ∨ chunkZ < 0 ∨ chunkZ ≥ numChunkRows) := by
      omega
    simp only [getChunkBackgroundEntityId, if_neg hc, true_and]
    rw [numChunkColumns_eq, firstChunkEntityId]
    ring
  · intro h
    have hc : chunkX < 0 ∨ chunkX ≥ numChunkColumns ∨ chunkZ < 0 ∨ chunkZ ≥ numChunkRows := by
      omega
    simp only [getChunkBackgroundEntityId, if_pos hc]
  · rintro _ _ rfl rfl
    rfl

/-- Witness for C4: chunk (3, 4) is in range and has id 204; chunk (20, 0) is out of
range and has the sentinel id 0. -/
theorem getChunkBackgroundEntityId_spec_witness :
    getChunkBackgroundEntityId 3 4 = 204 ∧ getChunkBackgroundEntityId 20 0 = 0 :=
  ⟨by
    have h := ((getChunkBackgroundEntityId_spec 3 4).1 (by decide)).2
    rw [h]; rfl,
   (getChunkBackgroundEntityId_spec 20 0).2.1 (by decide)⟩

/-- C5: `worldToTile` uses floor division: the chunk column is `c` exactly when the
shifted coordinate lies in `[c * chunkSize, (c + 1) * chunkSize)`, that is
`chunkX = ⌊(x + halfMapWidth) / chunkSize⌋`, also left of the map (`x = -100.5`
gives `chunkX = -1`); the same holds for `z`, `halfMapHeight` and `chunkZ`. -/
theorem worldToTile_chunk_floor (x z : ℚ) (c : Int) :
    ((worldToTile x z).chunkX = c ↔
      (c : ℚ) * (chunkSize : ℚ) ≤ x + (halfMapWidth : ℚ) ∧
        x + (halfMapWidth : ℚ) < ((c : ℚ) + 1) * (chunkSize : ℚ)) ∧
    ((worldToTile x z).chunkZ = c ↔
      (c : ℚ) * (chunkSize : ℚ) ≤ z + (halfMapHeight : ℚ) ∧
        z + (halfMapHeight : ℚ) < ((c : ℚ) + 1) * (chunkSize : ℚ)) ∧
    (worldToTile x z).chunkX = ⌊(x + (halfMapWidth : ℚ)) / (chunkSize : ℚ)⌋ ∧
    (worldToTile x z).chunkZ = ⌊(z + (halfMapHeight : ℚ)) / (chunkSize : ℚ)⌋ ∧
    (worldToTile (-201 / 2) z).chunkX = -1 ∧
    (worldToTile x (-201 / 2)).chunkZ = -1 := by
  refine ⟨?_, ?_, ?_, ?_, ?_, ?_⟩
  · rw [worldToTile_chunkX, floor_div_ten_eq_iff]
    simp [chunkSize, halfMapWidth]
  · rw [worldToTile_chunkZ, floor_div_ten_eq_iff]
    simp [chunkSize, halfMapHeight]
  · rw [worldToTile_chunkX]
    simp [chunkSize, halfMapWidth]
  · rw [worldToTile_chunkZ]
    simp [chunkSize, halfMapHeight]
  · rw [worldToTile_chunkX, floor_div_ten_eq_iff]
    norm_num
  · rw [worldToTile_chunkZ, floor_div_ten_eq_iff]
    norm_num

/-- C6: for every world position the tile address lies in `[0, chunkSize)` and is the
remainder of the floored shifted coordinate: `chunkX * chunkSize + tileX` is
`⌊x + halfMapWidth⌋` and `chunkZ * chunkSize + tileZ` is `⌊z + halfMapHeight⌋`. -/
theorem worldToTile_tile_range (x z : ℚ) :
    (0 ≤ (worldToTile x z).tileX ∧ (worldToTile x z).tileX < chunkSize) ∧
    (0 ≤ (worldToTile x z).tileZ ∧ (worldToTile x z).tileZ < chunkSize) ∧
    (worldToTile x z).chunkX * chunkSize + (worldToTile x z).tileX
      = ⌊x + (halfMapWidth : ℚ)⌋ ∧
    (worldToTile x z).chunkZ * chunkSize + (worldToTile x z).tileZ
      = ⌊z + (halfMapHeight : ℚ)⌋ :=
  worldToTile_tile_bounds x z

/-- C7: round-trip stability. The reference corner `q` of the tile of a world position
maps back to the same address in all four components, and a position with integer
coordinates is its own reference corner. -/
theorem worldToTile_tileToWorld_roundtrip (x z : ℚ) (m n : Int) :
    (worldToTile
        (tileToWorld (worldToTile x z).chunkX (worldToTile x z).chunkZ
          (worldToTile x z).tileX (worldToTile x z).tileZ).1
        (tileToWorld (worldToTile x z).chunkX (worldToTile x z).chunkZ
          (worldToTile x z).tileX (worldToTile x z).tileZ).2
      = worldToTile x z) ∧
    tileToWorld (worldToTile m n).chunkX (worldToTile m n).chunkZ
        (worldToTile m n).tileX (worldToTile m n).tileZ = ((m : ℚ), (n : ℚ)) := by
  constructor
  · rw [tileToWorld_worldToTile]
    exact worldToTile_floor x z
  · rw [tileToWorld_worldToTile, Int.floor_intCast, Int.floor_intCast]

/-- C8: boundary test. In a view that holds the background tile data of every chunk of
the map, with every tileset column at most 2, `validatePosition` rejects every
candidate whose x is 101 or -101 and accepts every candidate whose x is 99 or -99 and
whose y lies in [-99, 99]; the same holds with x and y exchanged. The rejections hold
in every view. -/
theorem validatePosition_boundary (context : ClientContext)
    (hview : ∀ chunkX chunkZ : Int, 0 ≤ chunkX → chunkX < numChunkColumns → 0 ≤ chunkZ →
      chunkZ < numChunkRows →
      ∃ tiles, getChunkBackgroundTiles context.view
          (getChunkBackgroundEntityId chunkX chunkZ) = some tiles ∧
        ∀ i : Int, 0 ≤ i → i < chunkSize * chunkSize →
          ∃ column : Int, charAt tiles.tilesetColumns i = some column ∧ column ≤ 2) :
    (halfMapWidth + 1 = 101 ∧ halfMapHeight + 1 = 101) ∧
    (∀ y z : ℚ, validatePosition context { x := 101, y := y, z := z } = false ∧
      validatePosition context { x := -101, y := y, z := z } = false) ∧
    (∀ y z : ℚ, -99 ≤ y → y ≤ 99 →
      validatePosition context { x := 99, y := y, z := z } = true ∧
      validatePosition context { x := -99, y := y, z := z } = true) ∧
    (∀ x z : ℚ, validatePosition context { x := x, y := 101, z := z } = false ∧
      validatePosition context { x := x, y := -101, z := z } = false) ∧
    (∀ x z : ℚ, -99 ≤ x → x ≤ 99 →
      validatePosition context { x := x, y := 99, z := z } = true ∧
      validatePosition context { x := x, y := -99, z := z } = true) := by
  refine ⟨by decide, ?_, ?_, ?_, ?_⟩
  · intro y z
    constructor
    · rw [validatePosition_eq, validatePoint_outside context _ (by norm_num)]
      rfl
    · rw [validatePosition_eq, validatePoint_outside context _ (by norm_num)]
      rfl
  · intro y z h1 h2
    constructor
    · rw [validatePosition_eq_true_iff]
      refine ⟨?_, ?_, ?_, ?_⟩ <;> apply validatePoint_inside context hview <;>
        refine ⟨?_, ?_, ?_, ?_⟩ <;> norm_num <;> linarith
    · rw [validatePosition_eq_true_iff]
      refine ⟨?_, ?_, ?_, ?_⟩ <;> apply validatePoint_inside context hview <;>
        refine ⟨?_, ?_, ?_, ?_⟩ <;> norm_num <;> linarith
  · intro x z
    constructor
    · rw [validatePosition_eq, validatePoint_outside context _ (by norm_num)]
      rfl
    · rw [validatePosition_eq, validatePoint_outside context _ (by norm_num)]
      rfl
  · intro x z h1 h2
    constructor
    · rw [validatePosition_eq_true_iff]
      refine ⟨?_, ?_, ?_, ?_⟩ <;> apply validatePoint_inside context hview <;>
        refine ⟨?_, ?_, ?_, ?_⟩ <;> norm_num <;> linarith
    · rw [validatePosition_eq_true_iff]
      refine ⟨?_, ?_, ?_, ?_⟩ <;> apply validatePoint_inside context hview <;>
        refine ⟨?_, ?_, ?_, ?_⟩ <;> norm_num <;> linarith

/-- Witness for C8 in the grass view, which satisfies the hypothesis: (101, 0) and
(0, -101) are rejected, (99, 0) and (-99, 99) are accepted. -/
theorem validatePosition_boundary_witness :
    (∀ chunkX chunkZ : Int, 0 ≤ chunkX → chunkX < numChunkColumns → 0 ≤ chunkZ →
      chunkZ < numChunkRows →
      ∃ tiles, getChunkBackgroundTiles (exampleContext grassView).view
          (getChunkBackgroundEntityId chunkX chunkZ) = some tiles ∧
        ∀ i : Int, 0 ≤ i → i < chunkSize * chunkSize →
          ∃ column : Int, charAt tiles.tilesetColumns i = some column ∧ column ≤ 2) ∧
    validatePosition (exampleContext grassView) { x := 101, y := 0, z := 0 } = false ∧
    validatePosition (exampleContext grassView) { x := 0, y := -101, z := 0 } = false ∧
    validatePosition (exampleContext grassView) { x := 99, y := 0, z := 0 } = true ∧
    validatePosition (exampleContext grassView) { x := -99, y := 99, z := 0 } = true :=
  ⟨fun cx cz _ _ _ _ => grassView_traversable cx cz,
   ((validatePosition_boundary (exampleContext grassView)
      (fun cx cz _ _ _ _ => grassView_traversable cx cz)).2.1 0 0).1,
   ((validatePosition_boundary (exampleContext grassView)
      (fun cx cz _ _ _ _ => grassView_traversable cx cz)).2.2.2.1 0 0).2,
   ((validatePosition_boundary (exampleContext grassView)
      (fun cx cz _ _ _ _ => grassView_traversable cx cz)).2.2.1 0 0
        (by norm_num) (by norm_num)).1,
   ((validatePosition_boundary (exampleContext grassView)
      (fun cx cz _ _ _ _ => grassView_traversable cx cz)).2.2.2.2 (-99) 0
        (by norm_num) (by norm_num)).1⟩

/-- C9: `move` publishes a Position update exactly when `validatePosition` accepts the
candidate. On acceptance the updates sent by `move` start with one Position update for
the recorded client entity id carrying the candidate coordinates, and no other Position
update follows; on rejection nothing is sent and `lastImprobablePosition` is kept. -/
theorem move_publishes_iff (context : ClientContext) (positionData : PositionData)
    (tickPeriodMs : Int) (g : RandStream) :
    ((∃ id c, ComponentUpdate.position id c ∈
        (move context positionData tickPeriodMs g).1.connection.sent.drop
          context.connection.sent.length) ↔
      validatePosition context (moveCandidate context positionData tickPeriodMs) = true) ∧
    (validatePosition context (moveCandidate context positionData tickPeriodMs) = true →
      ∃ rest : List ComponentUpdate,
        (move context positionData tickPeriodMs g).1.connection.sent
          = context.connection.sent ++
            ComponentUpdate.position context.clientEntityId
              (moveCandidate context positionData tickPeriodMs) :: rest ∧
        ∀ u ∈ rest, ∀ id c, u ≠ ComponentUpdate.position id c) ∧
    (validatePosition context (moveCandidate context positionData tickPeriodMs) = false →
      (move context positionData tickPeriodMs g).1.connection.sent
          = context.connection.sent ∧
        (move context positionData tickPeriodMs g).1.lastImprobablePosition
          = context.lastImprobablePosition) := by
  have hrej : validatePosition context (moveCandidate context positionData tickPeriodMs)
      = false →
      (move context positionData tickPeriodMs g).1.connection.sent
          = context.connection.sent ∧
        (move context positionData tickPeriodMs g).1.lastImprobablePosition
          = context.lastImprobablePosition := by
    intro h
    rw [move_of_reject context positionData tickPeriodMs g h]
    obtain ⟨h1, h2, _⟩ := clientDirectionChange_fields context g
    exact ⟨by rw [h1], h2⟩
  refine ⟨?_, move_of_accept context positionData tickPeriodMs g, hrej⟩
  constructor
  · rintro ⟨id, c, hmem⟩
    by_contra hv
    rw [Bool.not_eq_true] at hv
    rw [(hrej hv).1, List.drop_length] at hmem
    simp at hmem
  · intro h
    obtain ⟨rest, hs, _⟩ := move_of_accept context positionData tickPeriodMs g h
    refine ⟨context.clientEntityId, moveCandidate context positionData tickPeriodMs, ?_⟩
    rw [hs, List.drop_left]
    simp

/-- Witness for C9: in the grass view the move from the origin is accepted and
published, and the move from the edge position is rejected and sends nothing. -/
theorem move_publishes_iff_witness :
    (validatePosition (exampleContext grassView)
        (moveCandidate (exampleContext grassView) originPosition 33) = true ∧
      ∃ rest : List ComponentUpdate,
        (move (exampleContext grassView) originPosition 33 (fun _ => 50)).1.connection.sent
          = (exampleContext grassView).connection.sent ++
            ComponentUpdate.position (exampleContext grassView).clientEntityId
              (moveCandidate (exampleContext grassView) originPosition 33) :: rest ∧
        ∀ u ∈ rest, ∀ id c, u ≠ ComponentUpdate.position id c) ∧
    (validatePosition (exampleContext grassView)
        (moveCandidate (exampleContext grassView) edgePosition 33) = false ∧
      (move (exampleContext grassView) edgePosition 33 (fun _ => 50)).1.connection.sent
          = (exampleContext grassView).connection.sent ∧
      (move (exampleContext grassView) edgePosition 33
          (fun _ => 50)).1.lastImprobablePosition
        = (exampleContext grassView).lastImprobablePosition) :=
  ⟨⟨example_accept,
    (move_publishes_iff (exampleContext grassView) originPosition 33 (fun _ => 50)).2.1
      example_accept⟩,
   ⟨example_reject,
    (move_publishes_iff (exampleContext grassView) edgePosition 33 (fun _ => 50)).2.2
      example_reject⟩⟩

/-- C10, as stated, fails: at the edge position the candidate is rejected, and with a
first draw of 50 the direction after `move` is still the direction before. -/
theorem move_reject_direction_counterexample :
    validatePosition (exampleContext grassView)
        (moveCandidate (exampleContext grassView) edgePosition 33) = false ∧
    (move (exampleContext grassView) edgePosition 33 (fun _ => 50)).1.direction
      = (exampleContext grassView).direction := by
  refine ⟨example_reject, ?_⟩
  rw [move_of_reject _ _ _ _ example_reject]
  simp [clientDirectionChange, rand, directionChangeChancePercent]

/-- C10, amended: when the validator rejects the candidate, `move` is exactly one call
of `clientDirectionChange`, so the direction after `move` differs from the direction
before exactly when the first random draw is below `directionChangeChancePercent`
(10) modulo 100; for every other draw the direction is unchanged. -/
theorem move_reject_direction (context : ClientContext) (positionData : PositionData)
    (tickPeriodMs : Int) (g : RandStream)
    (h : validatePosition context (moveCandidate context positionData tickPeriodMs) = false) :
    move context positionData tickPeriodMs g = clientDirectionChange context g ∧
    ((move context positionData tickPeriodMs g).1.direction ≠ context.direction ↔
      g 0 % 100 < directionChangeChancePercent) ∧
    (g 0 % 100 ≥ directionChangeChancePercent →
      (move context positionData tickPeriodMs g).1.direction = context.direction) ∧
    directionChangeChancePercent = 10 := by
  have hm := move_of_reject context positionData tickPeriodMs g h
  have hiff := clientDirectionChange_direction_ne_iff context g
  rw [← hm] at hiff
  refine ⟨hm, hiff, ?_, rfl⟩
  intro hge
  by_contra hne
  exact absurd (hiff.mp hne) (not_lt.mpr hge)

/-- Witness for the amended C10: at the edge position the candidate is rejected; a
first draw of 5 changes the direction, a first draw of 50 keeps it. -/
theorem move_reject_direction_witness :
    validatePosition (exampleContext grassView)
        (moveCandidate (exampleContext grassView) edgePosition 33) = false ∧
    (move (exampleContext grassView) edgePosition 33 (fun _ => 5)).1.direction
      ≠ (exampleContext grassView).direction ∧
    (move (exampleContext grassView) edgePosition 33 (fun _ => 50)).1.direction
      = (exampleContext grassView).direction :=
  ⟨example_reject,
   (move_reject_direction (exampleContext grassView) edgePosition 33 (fun _ => 5)
      example_reject).2.1.mpr (by decide),
   (move_reject_direction (exampleContext grassView) edgePosition 33 (fun _ => 50)
      example_reject).2.2.1 (by decide)⟩

end BotClient

namespace BotClient

/-! ## Direction change: further helper lemmas -/

/-- The direction after `clientDirectionChange`, from the first two draws. -/
lemma clientDirectionChange_direction (context : ClientContext) (g : RandStream) :
    (clientDirectionChange context g).1.direction =
      if g 0 % 100 ≥ directionChangeChancePercent then context.direction
      else Direction.fromValue ((context.direction.value + 1 + g 1 % 3) % 4) := by
  simp only [clientDirectionChange, rand]
  split <;> rfl

/-- Converting a value below 4 to a direction and back gives the value. -/
lemma value_fromValue (n : Nat) (h : n < 4) : (Direction.fromValue n).value = n := by
  interval_cases n <;> rfl

/-- Two residues modulo 3 that rotate a direction to the same direction are equal. -/
lemma rotate_injective (d : Direction) (r r' : Nat)
    (h : Direction.fromValue ((d.value + 1 + r % 3) % 4)
      = Direction.fromValue ((d.value + 1 + r' % 3) % 4)) : r % 3 = r' % 3 := by
  have h1 : r % 3 < 3 := Nat.mod_lt _ (by norm_num)
  have h2 : r' % 3 < 3 := Nat.mod_lt _ (by norm_num)
  revert h
  interval_cases (r % 3) <;> interval_cases (r' % 3) <;> cases d <;> decide

/-- Every other direction is reached by one of the three residues. -/
lemma rotate_surjective (d e : Direction) (h : e ≠ d) :
    ∃ r : Nat, r < 3 ∧ Direction.fromValue ((d.value + 1 + r % 3) % 4) = e := by
  cases d <;> cases e <;> first
    | exact absurd rfl h
    | exact ⟨0, by decide, by decide⟩
    | exact ⟨1, by decide, by decide⟩
    | exact ⟨2, by decide, by decide⟩

/-- Of the 100 residues of the first draw, 10 change the direction. -/
lemma clientDirectionChange_changing_residues (context : ClientContext) :
    ((List.range 100).filter (fun r =>
      decide ((clientDirectionChange context (fun _ => r)).1.direction
        ≠ context.direction))).length = 10 := by
  have h : ∀ r : Nat,
      decide ((clientDirectionChange context (fun _ => r)).1.direction ≠ context.direction)
        = decide (r % 100 < directionChangeChancePercent) := by
    intro r
    rw [decide_eq_decide]
    exact clientDirectionChange_direction_ne_iff context (fun _ => r)
  simp only [h]
  decide

/-- The tick period is 33 ms. -/
lemma tickPeriodMs_eq : tickPeriodMs = 33 := by
  simp only [tickPeriodMs, castToInt, tickRateHz]
  norm_num

end BotClient

namespace BotClient

/-- C11: `clientDirectionChange` as a function of the direction `d` and the draws
`r1 = g 0`, `r2 = g 1`. If `r1 mod 100 ≥ 10` the direction stays `d`, so exactly 10 of
the 100 residues change it; otherwise the new direction is
`(d + 1 + r2 mod 3) mod 4`, which is never `d`, and the three residues of `r2 mod 3`
map one-to-one onto the three directions other than `d`. -/
theorem clientDirectionChange_spec (context : ClientContext) (g : RandStream) :
    directionChangeChancePercent = 10 ∧
    (g 0 % 100 ≥ 10 → (clientDirectionChange context g).1.direction = context.direction) ∧
    (g 0 % 100 < 10 →
      (clientDirectionChange context g).1.direction.value
        = (context.direction.value + 1 + g 1 % 3) % 4 ∧
      (clientDirectionChange context g).1.direction ≠ context.direction) ∧
    ((List.range 100).filter (fun r =>
      decide ((clientDirectionChange context (fun _ => r)).1.direction
        ≠ context.direction))).length = 10 ∧
    (∀ r r' : Nat,
      Direction.fromValue ((context.direction.value + 1 + r % 3) % 4)
        = Direction.fromValue ((context.direction.value + 1 + r' % 3) % 4) →
      r % 3 = r' % 3) ∧
    (∀ e : Direction, e ≠ context.direction →
      ∃ r : Nat, r < 3 ∧
        Direction.fromValue ((context.direction.value + 1 + r % 3) % 4) = e) := by
  have hd := clientDirectionChange_direction context g
  refine ⟨rfl, ?_, ?_, clientDirectionChange_changing_residues context,
    rotate_injective context.direction, rotate_surjective context.direction⟩
  · intro h
    rw [hd, if_pos (by simpa [directionChangeChancePercent] using h)]
  · intro h
    have hn : ¬ (g 0 % 100 ≥ directionChangeChancePercent) := by
      simpa [directionChangeChancePercent] using h
    rw [hd, if_neg hn]
    exact ⟨value_fromValue _ (Nat.mod_lt _ (by norm_num)), rotate_ne _ _⟩

/-- Witness for C11: facing up, the draws 50 keep the direction, and the draws 5, 5
turn it to `(0 + 1 + 2) mod 4 = 3`, right. -/
theorem clientDirectionChange_spec_witness :
    (clientDirectionChange (exampleContext grassView) (fun _ => 50)).1.direction
      = (exampleContext grassView).direction ∧
    (clientDirectionChange (exampleContext grassView) (fun _ => 5)).1.direction.value
      = ((exampleContext grassView).direction.value + 1 + 5 % 3) % 4 ∧
    (clientDirectionChange (exampleContext grassView) (fun _ => 5)).1.direction
      ≠ (exampleContext grassView).direction :=
  ⟨(clientDirectionChange_spec (exampleContext grassView) (fun _ => 50)).2.1 (by decide),
   (clientDirectionChange_spec (exampleContext grassView) (fun _ => 5)).2.2.1 (by decide)⟩

/-- C12: the candidate of `move` differs from the current position by the step
`s = 0.001 * tickPeriodMs * velocity` in one coordinate: up adds `s` to y, down
subtracts it from y, left subtracts it from x, right adds it to x, and z is never
changed. With `tickPeriodMs = 33`, the integer part of `1000 / 30`, and velocity 1.5
the step is 0.0495, so from (0, 0, 0) facing up the candidate is (0, 0.0495, 0). -/
theorem moveCandidate_step (context : ClientContext) (positionData : PositionData)
    (t : Int) :
    (context.direction = .kUp →
      moveCandidate context positionData t =
        { positionData.coordinates with
          y := positionData.coordinates.y + 1 / 1000 * (t : ℚ) * velocity }) ∧
    (context.direction = .kDown →
      moveCandidate context positionData t =
        { positionData.coordinates with
          y := positionData.coordinates.y - 1 / 1000 * (t : ℚ) * velocity }) ∧
    (context.direction = .kLeft →
      moveCandidate context positionData t =
        { positionData.coordinates with
          x := positionData.coordinates.x - 1 / 1000 * (t : ℚ) * velocity }) ∧
    (context.direction = .kRight →
      moveCandidate context positionData t =
        { positionData.coordinates with
          x := positionData.coordinates.x + 1 / 1000 * (t : ℚ) * velocity }) ∧
    (moveCandidate context positionData t).z = positionData.coordinates.z ∧
    (t ≠ 0 → 1 / 1000 * (t : ℚ) * velocity ≠ 0) ∧
    tickPeriodMs = 33 ∧ tickPeriodMs = ⌊(1000 : ℚ) / 30⌋ ∧
    1 / 1000 * (tickPeriodMs : ℚ) * velocity = 99 / 2000 ∧
    moveCandidate (exampleContext context.view) originPosition tickPeriodMs
      = { x := 0, y := 99 / 2000, z := 0 } := by
  refine ⟨?_, ?_, ?_, ?_, ?_, ?_, tickPeriodMs_eq, ?_, ?_, ?_⟩
  · intro h; simp only [moveCandidate, h]
  · intro h; simp only [moveCandidate, h]
  · intro h; simp only [moveCandidate, h]
  · intro h; simp only [moveCandidate, h]
  · simp only [moveCandidate]
    cases context.direction <;> rfl
  · intro h
    have : (t : ℚ) ≠ 0 := by exact_mod_cast h
    simp only [velocity]
    positivity
  · rw [tickPeriodMs_eq, eq_comm, Int.floor_eq_iff]; norm_num
  · rw [tickPeriodMs_eq]; norm_num [velocity]
  · rw [tickPeriodMs_eq]; exact moveCandidate_origin context.view

/-- Witness for C12: facing up at the origin with a tick of 33 ms. -/
theorem moveCandidate_step_witness :
    moveCandidate (exampleContext grassView) originPosition 33 =
      { originPosition.coordinates with
        y := originPosition.coordinates.y + 1 / 1000 * ((33 : Int) : ℚ) * velocity } ∧
    1 / 1000 * ((33 : Int) : ℚ) * velocity ≠ 0 :=
  ⟨(moveCandidate_step (exampleContext grassView) originPosition 33).1 rfl,
   (moveCandidate_step (exampleContext grassView) originPosition 33).2.2.2.2.2.1
     (by decide)⟩

end BotClient

namespace BotClient

/-! ## Liveness monitor: helper lemmas -/

/-- The pong handler on an update that carries a send timestamp. -/
lemma onClientHeartbeatPongUpdate_some (session : Session) (opEntityId : EntityId)
    (sendTime now : Int) :
    onClientHeartbeatPongUpdate session opEntityId (some sendTime) now =
      { session with
        context := { session.context with
          lastHeartbeatPongTime := now
          meanHeartbeatLatencyMs :=
            session.context.meanHeartbeatLatencyMs * (1 - 1 / 2)
              + 1 / 2 * (((now - sendTime : Int) : ℚ) / 1000) } } := by
  simp only [onClientHeartbeatPongUpdate, meanHeartbeatMovingExponentialFactor]
  congr 2
  ring

end BotClient

namespace BotClient

/-- C13: for every `ClientHeartbeatPong` update that carries a send timestamp, handled
at monotonic time `now` and whatever entity id it names, the handler sets
`lastHeartbeatPongTime = now` and the smoothed latency to
`mean * (1 - 0.5) + 0.5 * (now - sendTime) / 1000`, and changes nothing else of the
session. -/
theorem onClientHeartbeatPongUpdate_spec (session : Session) (opEntityId : EntityId)
    (sendTime now : Int) :
    meanHeartbeatMovingExponentialFactor = 1 / 2 ∧
    (onClientHeartbeatPongUpdate session opEntityId (some sendTime)
        now).context.lastHeartbeatPongTime = now ∧
    (onClientHeartbeatPongUpdate session opEntityId (some sendTime)
        now).context.meanHeartbeatLatencyMs
      = session.context.meanHeartbeatLatencyMs * (1 - 1 / 2)
          + 1 / 2 * (((now - sendTime : Int) : ℚ) / 1000) ∧
    onClientHeartbeatPongUpdate session opEntityId (some sendTime) now =
      { session with
        context := { session.context with
          lastHeartbeatPongTime := now
          meanHeartbeatLatencyMs :=
            session.context.meanHeartbeatLatencyMs * (1 - 1 / 2)
              + 1 / 2 * (((now - sendTime : Int) : ℚ) / 1000) } } := by
  have h := onClientHeartbeatPongUpdate_some session opEntityId sendTime now
  refine ⟨rfl, ?_, ?_, h⟩
  · rw [h]
  · rw [h]

/-- C14: a `ClientHeartbeatPong` update without send timestamp is ignored: the handler
returns the session as it was. -/
theorem onClientHeartbeatPongUpdate_absent (session : Session) (opEntityId : EntityId)
    (now : Int) :
    onClientHeartbeatPongUpdate session opEntityId none now = session := by
  rfl

end BotClient

namespace BotClient

/-! ## Status task, startup and end of tick: helper lemmas -/

/-- What `clientStatus` computes, with the constants evaluated. -/
lemma clientStatus_eq (context : ClientContext) (now : Int) :
    clientStatus context now =
      ({ context with
          meanTimeSinceLastHeartbeatPongMs :=
            context.meanTimeSinceLastHeartbeatPongMs * (1 - 1 / 20)
              + 1 / 20 * (((now - context.lastHeartbeatPongTime : Int) : ℚ) / 1000) },
       { latencyMs := context.meanHeartbeatLatencyMs
         desyncMs :=
           |context.meanTimeSinceLastHeartbeatPongMs * (1 - 1 / 20)
              + 1 / 20 * (((now - context.lastHeartbeatPongTime : Int) : ℚ) / 1000)
              - 999 / 2| }) := by
  have e : context.meanTimeSinceLastHeartbeatPongMs * (1 - 1 / 20)
      + 1 / 20 * (1 / 1000) * ((now - context.lastHeartbeatPongTime : Int) : ℚ)
      = context.meanTimeSinceLastHeartbeatPongMs * (1 - 1 / 20)
        + 1 / 20 * (((now - context.lastHeartbeatPongTime : Int) : ℚ) / 1000) := by
    ring
  have c : (1 : ℚ) / 2 * (clientPingTimeoutMs : ℚ) = 999 / 2 := by
    norm_num [clientPingTimeoutMs]
  simp only [clientStatus, meanTimeSinceLastHeartbeatPongExponentialFactor, e, c]

/-- The remaining time of a tick of 33 ms, from its start and end in microseconds. -/
lemma remainingNs_eq (tickStartTime tickEndTime : Int) :
    remainingNs tickPeriodMs tickStartTime tickEndTime
      = 33000000 - (tickEndTime - tickStartTime) := by
  rw [tickPeriodMs_eq]
  rfl

/-- The connection loop, by the outcomes of the three attempts. -/
lemma mainConnect_cases (connected : Nat → Bool) :
    mainConnect connected =
      if connected 0 then (none, [.connect 0])
      else if connected 1 then (none, [.connect 0, .sleep 1500, .connect 1])
      else if connected 2 then
        (none, [.connect 0, .sleep 1500, .connect 1, .sleep 1500, .connect 2])
      else
        (some .EXIT_FAILURE,
          [.connect 0, .sleep 1500, .connect 1, .sleep 1500, .connect 2]) := by
  cases h0 : connected 0 <;> cases h1 : connected 1 <;> cases h2 : connected 2 <;>
    simp [mainConnect, connectionLoop, connectionLoopFrom, connectionRetries,
      connectionRetryDelayMs, h0, h1, h2]

end BotClient

namespace BotClient

/-- C16: a status tick at monotonic time `now` sets the smoothed time since the last
pong to `m * (1 - a) + a * (now - lastHeartbeatPongTime) / 1000` with `a = 0.05`,
reports the desync `|m' - 499.5|`, 499.5 being half the ping period of 999 ms, and
changes no other field; with the initial `m = 499.5` and a time since the last pong of
499.5 ms the value stays 499.5 and the reported desync is 0. -/
theorem clientStatus_spec (context : ClientContext) (now : Int) :
    meanTimeSinceLastHeartbeatPongExponentialFactor = 1 / 20 ∧
    (1 : ℚ) / 2 * (clientPingTimeoutMs : ℚ) = 999 / 2 ∧
    (clientStatus context now).1 =
      { context with
        meanTimeSinceLastHeartbeatPongMs :=
          context.meanTimeSinceLastHeartbeatPongMs * (1 - 1 / 20)
            + 1 / 20 * (((now - context.lastHeartbeatPongTime : Int) : ℚ) / 1000) } ∧
    (clientStatus context now).2.desyncMs
      = |(clientStatus context now).1.meanTimeSinceLastHeartbeatPongMs - 999 / 2| ∧
    ((clientStatus context now).1.direction = context.direction ∧
      (clientStatus context now).1.meanHeartbeatLatencyMs = context.meanHeartbeatLatencyMs ∧
      (clientStatus context now).1.lastHeartbeatPongTime = context.lastHeartbeatPongTime ∧
      (clientStatus context now).1.clientEntityId = context.clientEntityId ∧
      (clientStatus context now).1.connection = context.connection ∧
      (clientStatus context now).1.lastImprobablePosition
        = context.lastImprobablePosition) ∧
    (∀ (view : View) (start : Int),
      (initialSession view start).context.meanTimeSinceLastHeartbeatPongMs = 999 / 2) ∧
    (context.meanTimeSinceLastHeartbeatPongMs = 999 / 2 →
      now - context.lastHeartbeatPongTime = 499500 →
      (clientStatus context now).1.meanTimeSinceLastHeartbeatPongMs = 999 / 2 ∧
      (clientStatus context now).2.desyncMs = 0) := by
  have h := clientStatus_eq context now
  refine ⟨rfl, by norm_num [clientPingTimeoutMs], by rw [h], by rw [h],
    by rw [h]; exact ⟨rfl, rfl, rfl, rfl, rfl, rfl⟩, ?_, ?_⟩
  · intro view start
    simp only [initialSession]
    norm_num [clientPingTimeoutMs]
  · intro hm ht
    rw [h]
    simp only [hm, ht]
    norm_num

/-- Witness for C16: the example context has `m = 499.5` and its last pong at time 0;
the status tick at 499500 microseconds keeps 499.5 and reports a desync of 0. -/
theorem clientStatus_spec_witness :
    (clientStatus (exampleContext grassView) 499500).1.meanTimeSinceLastHeartbeatPongMs
      = 999 / 2 ∧
    (clientStatus (exampleContext grassView) 499500).2.desyncMs = 0 :=
  (clientStatus_spec (exampleContext grassView) 499500).2.2.2.2.2.2 rfl (by decide)

/-- C17: the startup connection loop, for every sequence of connect outcomes. It makes
at most `connectionRetries` (3) attempts; it stops at the first successful attempt `i`,
having waited `connectionRetryDelayMs` after each of the `i` failed attempts before it;
when every attempt fails it makes exactly `connectionRetries` attempts with
`connectionRetries - 1` waits, none after the last attempt, and `main` returns
`EXIT_FAILURE`. -/
theorem mainConnect_spec (connected : Nat → Bool) :
    attempts (mainConnect connected).2 ≤ connectionRetries ∧
    (∀ i : Nat, i < connectionRetries → connected i = true →
      (∀ j : Nat, j < i → connected j = false) →
      (mainConnect connected).1 = none ∧
      (mainConnect connected).2 =
        (List.range i).flatMap
          (fun j => [StartupAction.connect j, StartupAction.sleep connectionRetryDelayMs])
          ++ [StartupAction.connect i] ∧
      attempts (mainConnect connected).2 = i + 1) ∧
    ((∀ i : Nat, i < connectionRetries → connected i = false) →
      (mainConnect connected).1 = some ExitStatus.EXIT_FAILURE ∧
      (mainConnect connected).2 =
        (List.range (connectionRetries - 1)).flatMap
          (fun j => [StartupAction.connect j, StartupAction.sleep connectionRetryDelayMs])
          ++ [StartupAction.connect (connectionRetries - 1)] ∧
      attempts (mainConnect connected).2 = connectionRetries ∧
      waits (mainConnect connected).2 = connectionRetries - 1 ∧
      (mainConnect connected).2.getLast?
        = some (StartupAction.connect (connectionRetries - 1))) ∧
    connectionRetries = 3 := by
  have h := mainConnect_cases connected
  refine ⟨?_, ?_, ?_, rfl⟩
  · rw [h]
    split_ifs <;> decide
  · intro i hi hc hj
    simp only [connectionRetries] at hi
    interval_cases i
    · rw [h, if_pos hc]
      decide
    · have h0 := hj 0 (by norm_num)
      rw [h, if_neg (by simp [h0]), if_pos hc]
      decide
    · have h0 := hj 0 (by norm_num)
      have h1 := hj 1 (by norm_num)
      rw [h, if_neg (by simp [h0]), if_neg (by simp [h1]), if_pos hc]
      decide
  · intro hall
    have h0 := hall 0 (by decide)
    have h1 := hall 1 (by decide)
    have h2 := hall 2 (by decide)
    rw [h, if_neg (by simp [h0]), if_neg (by simp [h1]), if_neg (by simp [h2])]
    decide

/-- Witness for C17: when only the second attempt succeeds the loop connects twice with
one wait between; when no attempt succeeds it connects three times with two waits and
`main` returns `EXIT_FAILURE`. -/
theorem mainConnect_spec_witness :
    ((mainConnect (fun i => decide (i = 1))).1 = none ∧
      (mainConnect (fun i => decide (i = 1))).2 =
        (List.range 1).flatMap
          (fun j => [StartupAction.connect j, StartupAction.sleep connectionRetryDelayMs])
          ++ [StartupAction.connect 1] ∧
      attempts (mainConnect (fun i => decide (i = 1))).2 = 1 + 1) ∧
    ((mainConnect (fun _ => false)).1 = some ExitStatus.EXIT_FAILURE ∧
      attempts (mainConnect (fun _ => false)).2 = connectionRetries ∧
      waits (mainConnect (fun _ => false)).2 = connectionRetries - 1) :=
  ⟨(mainConnect_spec (fun i => decide (i = 1))).2.1 1 (by decide) (by decide)
      (by intro j hj; interval_cases j; decide),
   ⟨((mainConnect_spec (fun _ => false)).2.2.1 (fun _ _ => rfl)).1,
    ((mainConnect_spec (fun _ => false)).2.2.1 (fun _ _ => rfl)).2.2.1,
    ((mainConnect_spec (fun _ => false)).2.2.1 (fun _ _ => rfl)).2.2.2.1⟩⟩

/-- C18 fails on the code: `remainingNs` subtracts an elapsed time in microseconds
from the tick period in nanoseconds. A tick of 33 ms that took 33 ms (33000
microseconds) still sleeps 32967000 ns, and so does every tick that took at least the
tick period but less than 33 seconds; the loop skips the sleep only from 33000000
microseconds on. -/
theorem tickSleep_after_full_period (tickStartTime elapsed : Int) :
    tickPeriodMs = 33 ∧
    tickSleep tickPeriodMs 0 33000 = some 32967000 ∧
    tickSleep tickPeriodMs tickStartTime (tickStartTime + 1000 * tickPeriodMs)
      = some 32967000 ∧
    (1000 * tickPeriodMs ≤ elapsed → elapsed < 33000000 →
      tickSleep tickPeriodMs tickStartTime (tickStartTime + elapsed)
        = some (33000000 - elapsed) ∧ 0 < 33000000 - elapsed) ∧
    (tickSleep tickPeriodMs tickStartTime (tickStartTime + elapsed) = none ↔
      33000000 ≤ elapsed) := by
  have hr := remainingNs_eq
  refine ⟨tickPeriodMs_eq, ?_, ?_, ?_, ?_⟩
  · simp only [tickSleep, hr]
    decide
  · simp only [tickSleep, hr]
    simp only [tickPeriodMs_eq]
    have e : (33000000 : Int) - (tickStartTime + 1000 * 33 - tickStartTime) = 32967000 := by
      ring
    rw [e]
    decide
  · intro h1 h2
    have e : (33000000 : Int) - (tickStartTime + elapsed - tickStartTime)
        = 33000000 - elapsed := by ring
    simp only [tickSleep, hr, e]
    have hp : (33000000 : Int) - elapsed > 0 := by omega
    rw [if_pos hp]
    exact ⟨rfl, hp⟩
  · have e : (33000000 : Int) - (tickStartTime + elapsed - tickStartTime)
        = 33000000 - elapsed := by ring
    simp only [tickSleep, hr, e]
    split_ifs with hp
    · simp only [reduceCtorEq, false_iff, not_le]
      omega
    · simp only [true_iff]
      omega

end BotClient

namespace BotClient

/-! ## Starting region and authority changes: helper lemmas -/

/-- The starting region when all four worker flags are supplied. -/
lemma startingChunkRegion_of_flags (GetWorkerFlag : String → Option String)
    (minX minZ sizeX sizeZ : String)
    (h1 : GetWorkerFlag "starting_chunk_min_x" = some minX)
    (h2 : GetWorkerFlag "starting_chunk_min_z" = some minZ)
    (h3 : GetWorkerFlag "starting_chunk_size_x" = some sizeX)
    (h4 : GetWorkerFlag "starting_chunk_size_z" = some sizeZ) :
    startingChunkRegion GetWorkerFlag =
      some { min_x := atoi minX, min_z := atoi minX, size_x := atoi sizeX
             size_z := atoi sizeZ } := by
  simp only [startingChunkRegion, h1, h2, h3, h4]

/-- The starting region is present exactly when all four worker flags are supplied. -/
lemma startingChunkRegion_isSome_iff (GetWorkerFlag : String → Option String) :
    (startingChunkRegion GetWorkerFlag).isSome = true ↔
      (GetWorkerFlag "starting_chunk_min_x").isSome = true ∧
      (GetWorkerFlag "starting_chunk_min_z").isSome = true ∧
      (GetWorkerFlag "starting_chunk_size_x").isSome = true ∧
      (GetWorkerFlag "starting_chunk_size_z").isSome = true := by
  simp only [startingChunkRegion]
  cases GetWorkerFlag "starting_chunk_min_x" <;>
    cases GetWorkerFlag "starting_chunk_min_z" <;>
    cases GetWorkerFlag "starting_chunk_size_x" <;>
    cases GetWorkerFlag "starting_chunk_size_z" <;> simp

/-- The handler on an event that grants authority. -/
lemma onClientAuthorityChange_authoritative (session : Session) (opEntityId : EntityId) :
    onClientAuthorityChange session opEntityId .kAuthoritative =
      { session with
        executor :=
          { callbacks := session.executor.callbacks ++
              [{ handle := session.executor.nextHandle, timeoutMs := 0
                 intervalMs := clientPingTimeoutMs, task := .clientPingTick }]
            nextHandle := session.executor.nextHandle + 1 }
        clientPingTickCallback := some session.executor.nextHandle
        context := { session.context with clientEntityId := opEntityId } } := by
  rfl

/-- The handler on an event that takes authority away. -/
lemma onClientAuthorityChange_notAuthoritative (session : Session) (opEntityId : EntityId) :
    onClientAuthorityChange session opEntityId .kNotAuthoritative =
      { session with
        executor := shovelerExecutorRemoveCallback session.executor
          session.clientPingTickCallback
        context := { session.context with clientEntityId := 0 }
        disconnected := true } := by
  rfl

/-- After removing a callback no task with its handle is scheduled, and the tasks with
other handles are the ones scheduled before. -/
lemma shovelerExecutorRemoveCallback_callbacks (executor : ShovelerExecutor) (handle : Nat)
    (c : ShovelerExecutorCallback) :
    c ∈ (shovelerExecutorRemoveCallback executor (some handle)).callbacks ↔
      c ∈ executor.callbacks ∧ c.handle ≠ handle := by
  simp [shovelerExecutorRemoveCallback, List.mem_filter]

end BotClient

namespace BotClient

/-- C19 fails on the code: the starting region is absent unless all four worker flags
are supplied, but when they are, `min_z` is parsed from the flag
`starting_chunk_min_x`, not from `starting_chunk_min_z`. With the flags 1, 2, 3, 4 the
region has `min_z = 1` where the flag says 2. -/
theorem startingChunkRegion_min_z_from_min_x (GetWorkerFlag : String → Option String) :
    ((startingChunkRegion GetWorkerFlag).isSome = true ↔
      (GetWorkerFlag "starting_chunk_min_x").isSome = true ∧
      (GetWorkerFlag "starting_chunk_min_z").isSome = true ∧
      (GetWorkerFlag "starting_chunk_size_x").isSome = true ∧
      (GetWorkerFlag "starting_chunk_size_z").isSome = true) ∧
    (∀ minX minZ sizeX sizeZ : String,
      GetWorkerFlag "starting_chunk_min_x" = some minX →
      GetWorkerFlag "starting_chunk_min_z" = some minZ →
      GetWorkerFlag "starting_chunk_size_x" = some sizeX →
      GetWorkerFlag "starting_chunk_size_z" = some sizeZ →
      startingChunkRegion GetWorkerFlag =
        some { min_x := atoi minX, min_z := atoi minX, size_x := atoi sizeX
               size_z := atoi sizeZ }) ∧
    exampleFlags "starting_chunk_min_z" = some "2" ∧ atoi "2" = 2 ∧
    startingChunkRegion exampleFlags
      = some { min_x := 1, min_z := 1, size_x := 3, size_z := 4 } := by
  refine ⟨startingChunkRegion_isSome_iff GetWorkerFlag,
    startingChunkRegion_of_flags GetWorkerFlag, by decide, by decide, ?_⟩
  rw [startingChunkRegion_of_flags exampleFlags "1" "2" "3" "4" (by decide) (by decide)
    (by decide) (by decide)]
  decide

/-- C20: an authority-changed event with authority not-authoritative on the Client
component removes the recorded ping task from the executor (the other tasks stay), sets
the recorded client entity id to 0 and sets the disconnected flag, so that the
condition of the tick loop is false at its next check; an event with authority
authoritative records the entity id of the event and schedules a ping task with
period `clientPingTimeoutMs`, whose handle it records. -/
theorem onClientAuthorityChange_spec (session : Session) (opEntityId : EntityId) :
    ((onClientAuthorityChange session opEntityId .kNotAuthoritative).executor
        = shovelerExecutorRemoveCallback session.executor session.clientPingTickCallback ∧
      (∀ handle : Nat, session.clientPingTickCallback = some handle →
        ∀ c : ShovelerExecutorCallback,
          c ∈ (onClientAuthorityChange session opEntityId .kNotAuthoritative).executor.callbacks
            ↔ c ∈ session.executor.callbacks ∧ c.handle ≠ handle) ∧
      (onClientAuthorityChange session opEntityId .kNotAuthoritative).context.clientEntityId
        = 0 ∧
      (onClientAuthorityChange session opEntityId .kNotAuthoritative).disconnected = true ∧
      tickLoopCondition (onClientAuthorityChange session opEntityId .kNotAuthoritative)
        = false) ∧
    ((onClientAuthorityChange session opEntityId .kAuthoritative).context.clientEntityId
        = opEntityId ∧
      (onClientAuthorityChange session opEntityId .kAuthoritative).executor.callbacks
        = session.executor.callbacks ++
          [{ handle := session.executor.nextHandle, timeoutMs := 0
             intervalMs := clientPingTimeoutMs, task := .clientPingTick }] ∧
      (onClientAuthorityChange session opEntityId .kAuthoritative).clientPingTickCallback
        = some session.executor.nextHandle ∧
      (onClientAuthorityChange session opEntityId .kAuthoritative).disconnected
        = session.disconnected) ∧
    clientPingTimeoutMs = 999 := by
  rw [onClientAuthorityChange_notAuthoritative, onClientAuthorityChange_authoritative]
  refine ⟨⟨rfl, ?_, rfl, rfl, rfl⟩, ⟨rfl, rfl, rfl, rfl⟩, rfl⟩
  intro handle hh c
  simp only [hh]
  exact shovelerExecutorRemoveCallback_callbacks session.executor handle c

/-- Witness for C20: from the initial session, authority for entity 42 schedules the
ping task with handle 2; losing it afterwards leaves the two tasks of the start, an
entity id of 0 and the disconnected flag set. -/
theorem onClientAuthorityChange_spec_witness :
    (onClientAuthorityChange (initialSession grassView 0) 42
        .kAuthoritative).clientPingTickCallback = some 2 ∧
    (∀ c : ShovelerExecutorCallback,
      c ∈ (onClientAuthorityChange
            (onClientAuthorityChange (initialSession grassView 0) 42 .kAuthoritative) 42
            .kNotAuthoritative).executor.callbacks
        ↔ c ∈ (onClientAuthorityChange (initialSession grassView 0) 42
              .kAuthoritative).executor.callbacks ∧ c.handle ≠ 2) :=
  ⟨rfl,
   (onClientAuthorityChange_spec
      (onClientAuthorityChange (initialSession grassView 0) 42 .kAuthoritative) 42).1.2.1
      2 rfl⟩

end BotClient

namespace BotClient

/-! ## Session state machine: helper lemmas -/

/-- The authority handler never clears the disconnected flag. -/
lemma onClientAuthorityChange_disconnected (session : Session) (opEntityId : EntityId)
    (opAuthority : Authority) (h : session.disconnected = true) :
    (onClientAuthorityChange session opEntityId opAuthority).disconnected = true := by
  cases opAuthority <;> simp [onClientAuthorityChange, h]

/-- The pong handler does not touch the disconnected flag. -/
lemma onClientHeartbeatPongUpdate_disconnected (session : Session) (opEntityId : EntityId)
    (opUpdateLastUpdatedTime : Option Int) (now : Int) :
    (onClientHeartbeatPongUpdate session opEntityId opUpdateLastUpdatedTime now).disconnected
      = session.disconnected := by
  cases opUpdateLastUpdatedTime <;> rfl

/-- No callback clears the disconnected flag. -/
lemma dispatch_disconnected (viewUpdate : View → Op → View) (session : Session) (op : Op)
    (now : Int) (h : session.disconnected = true) :
    (dispatch viewUpdate session op now).disconnected = true := by
  cases op with
  | disconnect reason => rfl
  | authorityChangeClient entityId authority =>
    exact onClientAuthorityChange_disconnected _ entityId authority h
  | componentUpdateClientHeartbeatPong entityId lastUpdatedTime =>
    simp only [dispatch]
    rw [onClientHeartbeatPongUpdate_disconnected]
    exact h
  | _ => exact h

/-- No scheduled task touches the disconnected flag. -/
lemma runTask_disconnected (session : Session) (task : ExecutorTask) (now : Int)
    (g : RandStream) :
    (runTask session task now g).1.disconnected = session.disconnected := by
  cases task <;> rfl

/-- No step of a tick clears the disconnected flag. -/
lemma tickStep_disconnected (viewUpdate : View → Op → View) (state : Session × RandStream)
    (step : TickStep × Int) (h : state.1.disconnected = true) :
    (tickStep viewUpdate state step).1.disconnected = true := by
  obtain ⟨s, now⟩ := step
  cases s with
  | op op => exact dispatch_disconnected viewUpdate state.1 op now h
  | task task =>
    simp only [tickStep]
    rw [runTask_disconnected]
    exact h
  | move positionData => exact h

/-- Once set, the disconnected flag stays set over every sequence of steps. -/
lemma tickSteps_disconnected (viewUpdate : View → Op → View) (steps : List (TickStep × Int))
    (state : Session × RandStream) (h : state.1.disconnected = true) :
    (tickSteps viewUpdate state steps).1.disconnected = true := by
  induction steps generalizing state with
  | nil => exact h
  | cons step steps ih =>
    simp only [tickSteps, List.foldl_cons]
    exact ih _ (tickStep_disconnected viewUpdate state step h)

/-- Once set, the disconnected flag stays set over every sequence of inbound ops. -/
lemma processOps_disconnected (viewUpdate : View → Op → View) (ops : List (Op × Int))
    (session : Session) (h : session.disconnected = true) :
    (processOps viewUpdate session ops).disconnected = true := by
  induction ops generalizing session with
  | nil => exact h
  | cons op ops ih =>
    simp only [processOps, List.foldl_cons]
    exact ih _ (dispatch_disconnected viewUpdate session op.1 op.2 h)

/-- Handling a sequence of ops in two parts. -/
lemma processOps_append (viewUpdate : View → Op → View) (session : Session)
    (ops later : List (Op × Int)) :
    processOps viewUpdate session (ops ++ later)
      = processOps viewUpdate (processOps viewUpdate session ops) later := by
  simp [processOps, List.foldl_append]

end BotClient

namespace BotClient

/-- C21: disconnected is terminal. A disconnect op sets the disconnected flag whatever
the session is; once the flag is set it is still set after every sequence of inbound
ops (disconnect, authority change, pong, entity, component and other ops), and also
after every sequence of tick steps (ops, scheduled tasks, `move`): no handler clears
it, and the condition of the tick loop stays false. -/
theorem disconnected_terminal (viewUpdate : View → Op → View) (session : Session)
    (g : RandStream) :
    (onDisconnect session).disconnected = true ∧
    (∀ (reason : String) (now : Int),
      (dispatch viewUpdate session (.disconnect reason) now).disconnected = true) ∧
    (∀ (before after : List (Op × Int)) (reason : String) (now : Int),
      (processOps viewUpdate session
        (before ++ [(Op.disconnect reason, now)] ++ after)).disconnected = true) ∧
    (session.disconnected = true →
      (∀ (op : Op) (now : Int), (dispatch viewUpdate session op now).disconnected = true) ∧
      (∀ ops : List (Op × Int), (processOps viewUpdate session ops).disconnected = true) ∧
      (∀ steps : List (TickStep × Int),
        (tickSteps viewUpdate (session, g) steps).1.disconnected = true ∧
        tickLoopCondition (tickSteps viewUpdate (session, g) steps).1 = false)) := by
  refine ⟨rfl, fun _ _ => rfl, ?_, ?_⟩
  · intro before after reason now
    rw [processOps_append, processOps_append]
    apply processOps_disconnected
    rfl
  · intro h
    refine ⟨fun op now => dispatch_disconnected viewUpdate session op now h,
      fun ops => processOps_disconnected viewUpdate ops session h, ?_⟩
    intro steps
    have hs := tickSteps_disconnected viewUpdate steps (session, g) h
    exact ⟨hs, by simp [tickLoopCondition, hs]⟩

/-- Witness for C21: after a disconnect op the session is disconnected, and it still is
after a grant of authority, a pong and a status task. -/
theorem disconnected_terminal_witness :
    (dispatch (fun view _ => view) (initialSession grassView 0) (.disconnect "bye")
      0).disconnected = true ∧
    (tickSteps (fun view _ => view)
      (dispatch (fun view _ => view) (initialSession grassView 0) (.disconnect "bye") 0,
        fun _ => 5)
      [(.op (.authorityChangeClient 42 .kAuthoritative), 1),
       (.op (.componentUpdateClientHeartbeatPong 42 (some 0)), 2),
       (.task .clientStatus, 3)]).1.disconnected = true :=
  ⟨rfl,
   ((disconnected_terminal (fun view _ => view)
      (dispatch (fun view _ => view) (initialSession grassView 0) (.disconnect "bye") 0)
      (fun _ => 5)).2.2.2 rfl).2.2 _ |>.1⟩

end BotClient

namespace BotClient

/-! ## Tile index and chunk ids: helper lemmas -/

/-- The id of an in-range chunk. -/
lemma getChunkBackgroundEntityId_in_range (chunkX chunkZ : Int)
    (h : 0 ≤ chunkX ∧ chunkX < numChunkColumns ∧ 0 ≤ chunkZ ∧ chunkZ < numChunkRows) :
    @Eq Int (getChunkBackgroundEntityId chunkX chunkZ) (12 + 60 * chunkX + 3 * chunkZ) := by
  have hc : ¬ (chunkX < 0 ∨ chunkX ≥ numChunkColumns ∨ chunkZ < 0 ∨ chunkZ ≥ numChunkRows) := by
    omega
  simp only [getChunkBackgroundEntityId, if_neg hc]
  rw [numChunkColumns_eq, firstChunkEntityId]
  ring

/-- An in-bounds read of a string gives the element stored at the index. -/
lemma charAt_in_bounds (s : List Int) (i : Int) (h0 : 0 ≤ i) (h1 : i < (s.length : Int)) :
    ∃ column : Int, s[i.toNat]? = some column ∧ charAt s i = some column := by
  have hi : i.toNat < s.length := by omega
  refine ⟨s[i.toNat], List.getElem?_eq_getElem hi, ?_⟩
  rw [charAt_eq_some_iff]
  exact ⟨h0, Or.inl (List.getElem?_eq_getElem hi)⟩

/-- When the range check has passed and the tile data of the chunk has `chunkSize ^ 2`
columns, `validatePoint` decides by an element of the data. -/
lemma validatePoint_lookup (context : ClientContext) (coordinates : Vector3)
    (tiles : TilesData)
    (hr : ¬ ((worldToTile coordinates.x coordinates.y).chunkX < 0 ∨
      (worldToTile coordinates.x coordinates.y).chunkX ≥ numChunkColumns ∨
      (worldToTile coordinates.x coordinates.y).chunkZ < 0 ∨
      (worldToTile coordinates.x coordinates.y).chunkZ ≥ numChunkRows ∨
      (worldToTile coordinates.x coordinates.y).tileX < 0 ∨
      (worldToTile coordinates.x coordinates.y).tileX ≥ chunkSize ∨
      (worldToTile coordinates.x coordinates.y).tileZ < 0 ∨
      (worldToTile coordinates.x coordinates.y).tileZ ≥ chunkSize))
    (ht : getChunkBackgroundTiles context.view
      (getChunkBackgroundEntityId (worldToTile coordinates.x coordinates.y).chunkX
        (worldToTile coordinates.x coordinates.y).chunkZ) = some tiles)
    (hl : (tiles.tilesetColumns.length : Int) = chunkSize ^ 2) :
    ∃ column : Int,
      tiles.tilesetColumns[((worldToTile coordinates.x coordinates.y).tileZ * chunkSize
        + (worldToTile coordinates.x coordinates.y).tileX).toNat]? = some column ∧
      validatePoint context coordinates = decide (column ≤ 2) := by
  have hb := tile_index_bounds (worldToTile coordinates.x coordinates.y).tileX
    (worldToTile coordinates.x coordinates.y).tileZ (by omega) (by omega)
  have hlen : (worldToTile coordinates.x coordinates.y).tileZ * chunkSize
      + (worldToTile coordinates.x coordinates.y).tileX
        < (tiles.tilesetColumns.length : Int) := by
    rw [hl, pow_two]; exact hb.2
  obtain ⟨column, hs, hc⟩ := charAt_in_bounds _ _ hb.1 hlen
  exact ⟨column, hs, validatePoint_of_read context coordinates tiles column hr ht hc⟩

end BotClient

namespace BotClient

/-- C23: when `validatePoint` reaches the tile lookup, that is when the range check
has passed, the index `tileZ * chunkSize + tileX` lies in `[0, chunkSize * chunkSize)`,
which is `[0, 100)`, so for tile data of length `chunkSize ^ 2` the lookup reads an
element of the data; and two in-range tile addresses with the same index are the same
address. -/
theorem tile_index_in_bounds (a : TileAddress) (tiles : TilesData)
    (context : ClientContext) (coordinates : Vector3) :
    chunkSize * chunkSize = 100 ∧
    (¬ (a.chunkX < 0 ∨ a.chunkX ≥ numChunkColumns ∨ a.chunkZ < 0 ∨ a.chunkZ ≥ numChunkRows ∨
        a.tileX < 0 ∨ a.tileX ≥ chunkSize ∨ a.tileZ < 0 ∨ a.tileZ ≥ chunkSize) →
      (0 ≤ a.tileZ * chunkSize + a.tileX ∧
        a.tileZ * chunkSize + a.tileX < chunkSize * chunkSize) ∧
      ((tiles.tilesetColumns.length : Int) = chunkSize ^ 2 →
        (a.tileZ * chunkSize + a.tileX).toNat < tiles.tilesetColumns.length ∧
        ∃ column : Int,
          tiles.tilesetColumns[(a.tileZ * chunkSize + a.tileX).toNat]? = some column ∧
          charAt tiles.tilesetColumns (a.tileZ * chunkSize + a.tileX) = some column)) ∧
    (a = worldToTile coordinates.x coordinates.y →
      ¬ (a.chunkX < 0 ∨ a.chunkX ≥ numChunkColumns ∨ a.chunkZ < 0 ∨
        a.chunkZ ≥ numChunkRows ∨ a.tileX < 0 ∨ a.tileX ≥ chunkSize ∨ a.tileZ < 0 ∨
        a.tileZ ≥ chunkSize) →
      getChunkBackgroundTiles context.view
        (getChunkBackgroundEntityId a.chunkX a.chunkZ) = some tiles →
      (tiles.tilesetColumns.length : Int) = chunkSize ^ 2 →
      ∃ column : Int,
        tiles.tilesetColumns[(a.tileZ * chunkSize + a.tileX).toNat]? = some column ∧
        validatePoint context coordinates = decide (column ≤ 2)) ∧
    (∀ tileX tileZ tileX' tileZ' : Int,
      0 ≤ tileX → tileX < chunkSize → 0 ≤ tileZ → tileZ < chunkSize →
      0 ≤ tileX' → tileX' < chunkSize → 0 ≤ tileZ' → tileZ' < chunkSize →
      tileZ * chunkSize + tileX = tileZ' * chunkSize + tileX' →
      tileX = tileX' ∧ tileZ = tileZ') := by
  refine ⟨by decide, ?_, ?_, ?_⟩
  · intro h
    have hb := tile_index_bounds a.tileX a.tileZ (by omega) (by omega)
    refine ⟨hb, ?_⟩
    intro hl
    have hlen : a.tileZ * chunkSize + a.tileX < (tiles.tilesetColumns.length : Int) := by
      rw [hl, pow_two]; exact hb.2
    exact ⟨by omega, charAt_in_bounds _ _ hb.1 hlen⟩
  · intro ha hr ht hl
    subst ha
    exact validatePoint_lookup context coordinates tiles hr ht hl
  · intro tileX tileZ tileX' tileZ' h1 h2 h3 h4 h5 h6 h7 h8 he
    rw [chunkSize_eq] at *
    constructor <;> omega

/-- Witness for C23: the address of the world position (-0.45, 0.45), chunk (9, 10)
and tile (9, 0), passes the range check; its index 9 is in bounds of the grass tiles. -/
theorem tile_index_in_bounds_witness :
    (0 ≤ (0 : Int) * chunkSize + 9 ∧ (0 : Int) * chunkSize + 9 < chunkSize * chunkSize) ∧
    ((0 : Int) * chunkSize + 9).toNat < (List.replicate 100 (0 : Int)).length :=
  ⟨((tile_index_in_bounds { chunkX := 9, chunkZ := 10, tileX := 9, tileZ := 0 }
      { tilesetColumns := List.replicate 100 0, tilesetRows := [], tilesetIds := [] }
      (exampleContext grassView) { x := -9 / 20, y := 9 / 20, z := 0 }).2.1
      (by decide)).1,
   (((tile_index_in_bounds { chunkX := 9, chunkZ := 10, tileX := 9, tileZ := 0 }
      { tilesetColumns := List.replicate 100 0, tilesetRows := [], tilesetIds := [] }
      (exampleContext grassView) { x := -9 / 20, y := 9 / 20, z := 0 }).2.1
      (by decide)).2 (by decide)).1⟩

/-- C24: `getChunkBackgroundEntityId` is injective on the chunk addresses of the map
and never returns the sentinel for them: equal ids mean equal addresses, and every
in-range id is at least `firstChunkEntityId`, which is 12, hence not 0. (The number of
chunk rows does not exceed the number of chunk columns, by which `chunkX` is
multiplied.) -/
theorem getChunkBackgroundEntityId_injective (chunkX chunkZ chunkX' chunkZ' : Int)
    (h : 0 ≤ chunkX ∧ chunkX < numChunkColumns ∧ 0 ≤ chunkZ ∧ chunkZ < numChunkRows)
    (h' : 0 ≤ chunkX' ∧ chunkX' < numChunkColumns ∧ 0 ≤ chunkZ' ∧ chunkZ' < numChunkRows) :
    (getChunkBackgroundEntityId chunkX chunkZ = getChunkBackgroundEntityId chunkX' chunkZ' →
      chunkX = chunkX' ∧ chunkZ = chunkZ') ∧
    firstChunkEntityId ≤ getChunkBackgroundEntityId chunkX chunkZ ∧
    firstChunkEntityId = 12 ∧
    getChunkBackgroundEntityId chunkX chunkZ ≠ 0 ∧
    numChunkRows ≤ numChunkColumns := by
  have e := getChunkBackgroundEntityId_in_range chunkX chunkZ h
  have e' := getChunkBackgroundEntityId_in_range chunkX' chunkZ' h'
  rw [numChunkColumns_eq, numChunkRows_eq] at h h'
  refine ⟨?_, ?_, rfl, ?_, by decide⟩
  · intro heq
    have heq' : @Eq Int (getChunkBackgroundEntityId chunkX chunkZ)
        (getChunkBackgroundEntityId chunkX' chunkZ') := heq
    rw [e, e'] at heq'
    constructor <;> omega
  · show (12 : Int) ≤ getChunkBackgroundEntityId chunkX chunkZ
    rw [e]
    omega
  · intro h0
    have h0' : @Eq Int (getChunkBackgroundEntityId chunkX chunkZ) 0 := h0
    rw [e] at h0'
    omega

/-- Witness for C24: chunks (3, 4) and (3, 5) are in range, with the ids 204 and 207. -/
theorem getChunkBackgroundEntityId_injective_witness :
    (getChunkBackgroundEntityId 3 4 = getChunkBackgroundEntityId 3 5 →
      (3 : Int) = 3 ∧ (4 : Int) = 5) ∧
    firstChunkEntityId ≤ getChunkBackgroundEntityId 3 4 ∧
    getChunkBackgroundEntityId 3 4 ≠ 0 :=
  ⟨(getChunkBackgroundEntityId_injective 3 4 3 5 (by decide) (by decide)).1,
   (getChunkBackgroundEntityId_injective 3 4 3 5 (by decide) (by decide)).2.1,
   (getChunkBackgroundEntityId_injective 3 4 3 5 (by decide) (by decide)).2.2.2.1⟩

end BotClient

namespace BotClient

/-- Every grant of authority adds a ping task to the executor. -/
lemma pingTasks_authoritative (session : Session) (opEntityId : EntityId) :
    pingTasks (onClientAuthorityChange session opEntityId .kAuthoritative).executor
      = pingTasks session.executor + 1 := by
  rw [onClientAuthorityChange_authoritative]
  simp [pingTasks, List.countP_append]

/-- C22 fails on the code: every authoritative event schedules a further ping task and
overwrites the recorded handle. After two authoritative events for entity 42 (also
with an authority-loss-imminent event between them) the executor holds two ping
tasks, and after the following not-authoritative event one ping task is still
scheduled while the recorded client entity id is 0. A single grant followed by a loss
does leave one ping task and then none. -/
theorem ping_task_leak (session : Session) (opEntityId : EntityId) :
    pingTasks (onClientAuthorityChange session opEntityId .kAuthoritative).executor
      = pingTasks session.executor + 1 ∧
    pingTasks (initialSession grassView 0).executor = 0 ∧
    pingTasks (processAuthorityChanges (initialSession grassView 0)
      [(42, .kAuthoritative), (42, .kAuthoritative)]).executor = 2 ∧
    pingTasks (processAuthorityChanges (initialSession grassView 0)
      [(42, .kAuthoritative), (42, .kAuthorityLossImminent),
        (42, .kAuthoritative)]).executor = 2 ∧
    pingTasks (processAuthorityChanges (initialSession grassView 0)
      [(42, .kAuthoritative), (42, .kAuthoritative),
        (42, .kNotAuthoritative)]).executor = 1 ∧
    (processAuthorityChanges (initialSession grassView 0)
      [(42, .kAuthoritative), (42, .kAuthoritative),
        (42, .kNotAuthoritative)]).context.clientEntityId = 0 ∧
    pingTasks (processAuthorityChanges (initialSession grassView 0)
      [(42, .kAuthoritative)]).executor = 1 ∧
    pingTasks (processAuthorityChanges (initialSession grassView 0)
      [(42, .kAuthoritative), (42, .kNotAuthoritative)]).executor = 0 := by
  refine ⟨pingTasks_authoritative session opEntityId, ?_, ?_, ?_, ?_, ?_, ?_, ?_⟩ <;> rfl

end BotClient
